import Mathlib

/-!
# 3x-ui operational core: storage format detection, metrics, supervisor, import

A shallow embedding of `database/db.go` and `web/service/server.go`.

Conventions of the embedding:
* a byte is a `Nat` (below 256 in every concrete input), a file is a list of bytes;
* a Go string is the list of its characters (`List Char`); the separators the code
  looks for are ASCII, so splitting on characters and on bytes agree;
* unsigned 64-bit arithmetic is `Nat` arithmetic reduced modulo `2 ^ 64`;
* every call into the operating system, the network or the supervised process takes
  its outcome from an explicit environment record and is logged in an event trace.
-/

namespace XUI

/-! ## database/db.go -/

namespace database

/-- A byte string. -/
abbrev Bytes := List Nat

/-- The constant `[]byte("SQLite format 3\x00")` of `IsSQLiteDB`: 16 bytes, the
last one NUL. -/
def signature : Bytes :=
  [83, 81, 76, 105, 116, 101, 32, 102, 111, 114, 109, 97, 116, 32, 51, 0]

/-- Error values a read can return. -/
inductive ReadErr
  | eof
  | other
  deriving DecidableEq, Repr

/-- An `io.ReaderAt` backed by a file (`*os.File`): its content, and whether the
device fails the read with an error other than `io.EOF`. -/
structure ReaderAt where
  data : Bytes
  fault : Bool
  deriving DecidableEq, Repr

/-- `make([]byte, n)`: a zero-filled buffer. -/
def makeBuf (n : Nat) : Bytes := List.replicate n 0

/-- `file.ReadAt(buf, off)` on an `*os.File`: the bytes available from `off` are
copied over the front of `buf`, the rest of `buf` keeps its content; the call
reports the count and `io.EOF` when fewer than `len(buf)` bytes were available. -/
def ReaderAt.ReadAt (file : ReaderAt) (buf : Bytes) (off : Nat) :
    Bytes × Nat × Option ReadErr :=
  if file.fault then (buf, 0, some ReadErr.other)
  else
    let chunk := (file.data.drop off).take buf.length
    (chunk ++ buf.drop chunk.length, chunk.length,
      if chunk.length < buf.length then some ReadErr.eof else none)

/-- `IsSQLiteDB` (db.go 152-160). The byte count returned by `ReadAt` is
discarded and `io.EOF` is tolerated, as in the source. -/
def IsSQLiteDB (file : ReaderAt) : Bool × Option ReadErr :=
  let buf := makeBuf signature.length
  match file.ReadAt buf 0 with
  | (buf, _, err) =>
    if err ≠ none ∧ err ≠ some ReadErr.eof then (false, err)
    else (decide (buf = signature), none)

/-- The constants `defaultUsername`, `defaultPassword`, `defaultSecret` (db.go 26-30). -/
def defaultUsername : String := "admin"

/-- See `defaultUsername`. -/
def defaultPassword : String := "admin"

/-- See `defaultUsername`. -/
def defaultSecret : String := ""

/-- A row of the `users` table, with the fields `initUser` fills; the key the
database assigns is left out. -/
structure User where
  Username : String
  Password : String
  LoginSecret : String
  deriving DecidableEq, Repr

/-- What the database answers during one `initUser`: whether the count query
fails and whether the insert fails. -/
structure DBEnv where
  countErr : Bool
  createErr : Bool
  deriving DecidableEq, Repr

/-- `isTableEmpty("users")` (db.go 67-71): `count` keeps its zero value when the
query fails. -/
def isTableEmpty (env : DBEnv) (users : List User) : Bool × Option String :=
  let count := if env.countErr then 0 else users.length
  (decide (count = 0), if env.countErr then some "count failed" else none)

/-- `initUser` (db.go 50-65): the `users` table after the call, and the error. -/
def initUser (env : DBEnv) (users : List User) : List User × Option String :=
  match isTableEmpty env users with
  | (_, some err) => (users, some err)
  | (empty, none) =>
    if empty then
      if env.createErr then (users, some "create failed")
      else
        (users ++ [{ Username := defaultUsername, Password := defaultPassword,
                     LoginSecret := defaultSecret }], none)
    else (users, none)

/-- A database that answers every query. -/
def healthyDB : DBEnv := { countErr := false, createErr := false }

/-- A database opened read-only: the count query is answered, every insert fails. -/
def readOnlyDB : DBEnv := { countErr := false, createErr := true }

end database

/-! ## Go library functions used by web/service/server.go -/

namespace golib

/-- `strings.TrimPrefix(s, p)`: `s` without the leading `p`, or `s` itself when
it does not start with `p`. -/
def TrimPrefix (s p : List Char) : List Char :=
  if p.isPrefixOf s then s.drop p.length else s

/-- `strings.Split(s, sep)` for a one-character separator: the pieces of `s`
between the separators; a string with `n` separators has `n + 1` pieces, the
empty string has the single piece `""`. -/
def Split : List Char → Char → List (List Char)
  | [], _ => [[]]
  | c :: cs, sep =>
    if c = sep then [] :: Split cs sep
    else
      match Split cs sep with
      | [] => [[c]]
      | p :: ps => (c :: p) :: ps

/-- The value of a decimal digit character. -/
def digitVal (c : Char) : Nat := c.toNat - 48

/-- The digit loop of `strconv.ParseUint` in base 10: the value of a non-empty
string of decimal digits, and no value for anything else. -/
def parseDigits (s : List Char) : Option Nat :=
  if s ≠ [] ∧ s.all Char.isDigit then
    some (s.foldl (fun n c => n * 10 + digitVal c) 0)
  else none

/-- `strconv.Atoi(s)` for an `int` of `intSize` bits: an optional sign `+` or `-`
followed by a non-empty string of decimal digits whose value fits the signed
range; `none` stands for a syntax or range error. -/
def Atoi (intSize : Nat) (s : List Char) : Option Int :=
  match s with
  | '-' :: t =>
    match parseDigits t with
    | some n => if n ≤ 2 ^ (intSize - 1) then some (-(n : Int)) else none
    | none => none
  | '+' :: t =>
    match parseDigits t with
    | some n => if n < 2 ^ (intSize - 1) then some (n : Int) else none
    | none => none
  | _ =>
    match parseDigits s with
    | some n => if n < 2 ^ (intSize - 1) then some (n : Int) else none
    | none => none

end golib

/-! ## web/service/server.go -/

namespace service

open golib

/-- `Release`: one entry of the decoded release index. -/
structure Release where
  TagName : String
  deriving DecidableEq, Repr

/-- The body of the `for _, release := range releases` loop of `GetXrayVersions`
(server.go 285-302): the value of `versions` after one pass. A `continue` leaves
`versions` as it was. -/
def versionsLoopBody (intSize : Nat) (versions : List String) (release : Release) :
    List String :=
  let tagVersion := TrimPrefix release.TagName.toList ['v']
  let tagParts := Split tagVersion '.'
  if tagParts.length ≠ 3 then versions
  else
    match Atoi intSize (tagParts.getD 0 []), Atoi intSize (tagParts.getD 1 []),
        Atoi intSize (tagParts.getD 2 []) with
    | some major, some minor, some patch =>
      if major > 25 ∨ (major = 25 ∧ minor > 3) ∨ (major = 25 ∧ minor = 3 ∧ patch ≥ 3) then
        versions ++ [release.TagName]
      else versions
    | _, _, _ => versions

/-- `GetXrayVersions` (server.go 284-303) on the decoded release index: `versions`
starts empty and the loop runs over the releases in order. `intSize` is the width
of the platform's `int` (32 or 64). -/
def GetXrayVersions (intSize : Nat) (releases : List Release) : List String :=
  releases.foldl (versionsLoopBody intSize) []

/-! ### Binary64 arithmetic of the rate computation -/

/-- A `float64` value: a rational for a finite value, `none` for an infinity or
a NaN. Exponent-range limits are left out: every quotient `GetStatus` forms from
64-bit counters and nanosecond durations lies in the normal range. -/
abbrev F64 := Option ℚ

/-- Round a rational to the nearest integer, ties to the even one. -/
def roundTiesEven (x : ℚ) : ℤ :=
  let f := ⌊x⌋
  if x - f < 1 / 2 then f
  else if 1 / 2 < x - f then f + 1
  else if f % 2 = 0 then f else f + 1

/-- The binary64 value nearest to `q`, ties to even: `q` is rounded to an integer
multiple of the unit in the last place of its binade (53 significant bits). -/
def roundF64 (q : ℚ) : ℚ :=
  if q = 0 then 0
  else
    let ulp : ℚ := 2 ^ (Int.log 2 |q| - 52)
    roundTiesEven (q / ulp) * ulp

/-- `float64(n)` for an integer `n`. -/
def F64.ofInt (n : ℤ) : F64 := some (roundF64 n)

/-- `x / y` on `float64`. Division by zero gives an infinity or a NaN. A quotient
with a non-finite operand is not formed by the code and is left non-finite. -/
def F64.div (x y : F64) : F64 :=
  match x, y with
  | some a, some b => if b = 0 then none else some (roundF64 (a / b))
  | _, _ => none

/-- `uint64(f)`: the fraction is discarded (truncation towards zero). When the
result is not representable in 64 unsigned bits the Go specification leaves the
value to the implementation: `conv` stands for that choice. -/
def F64.toUint64 (conv : F64 → Nat) (f : F64) : Nat :=
  match f with
  | some q => if -1 < q ∧ q < 2 ^ 64 then ⌊q⌋.toNat else conv f
  | none => conv f

/-- Subtraction of `uint64` values: wraps around modulo `2 ^ 64`. -/
def sub64 (a b : Nat) : Nat := (a % 2 ^ 64 + (2 ^ 64 - b % 2 ^ 64)) % 2 ^ 64

/-! ### Events and the metrics collector -/

/-- Calls that leave the process, in the order they are made. -/
inductive Event
  | httpGet (url : String)
  | createTemp (path : String)
  | create (path : String)
  | write (path : String)
  | remove (path : String)
  | rename (oldpath newpath : String)
  | exec (name : String)
  | StopXray
  | RestartXray (isForce : Bool)
  deriving DecidableEq, Repr

/-- Outcome of `http.Get(url)` followed by `io.ReadAll(resp.Body)`. -/
inductive HttpResult
  | getErr
  | readErr
  | body (s : String)
  deriving DecidableEq, Repr

/-- `getPublicIP` (server.go 100-118), given what the network answers. -/
def getPublicIP (resp : HttpResult) : String :=
  match resp with
  | HttpResult.getErr => "N/A"
  | HttpResult.readErr => "N/A"
  | HttpResult.body ipString => if ipString = "" then "N/A" else ipString

/-- The fields of `Status` that `GetStatus` derives from the previous snapshot or
from the service's cache; `T` is the sampling instant in nanoseconds. -/
structure Status where
  T : Int
  NetIOUp : Nat
  NetIODown : Nat
  NetTrafficSent : Nat
  NetTrafficRecv : Nat
  PublicIPv4 : String
  PublicIPv6 : String
  deriving DecidableEq, Repr

/-- The cache fields of `ServerService`; a fresh service holds two empty strings. -/
structure ServerService where
  cachedIPv4 : String
  cachedIPv6 : String
  deriving DecidableEq, Repr

/-- One entry of `net.IOCounters(false)`. -/
structure IOCountersStat where
  BytesSent : Nat
  BytesRecv : Nat
  deriving DecidableEq, Repr

/-- What the host answers during one call of `GetStatus`: the clock, the network
counters (`none` when `net.IOCounters` fails), the answer the network would give
to a GET of each URL, and the platform's out-of-range float conversion. -/
structure StatusEnv where
  now : Int
  ioCounters : Option (List IOCountersStat)
  http : String → HttpResult
  conv : F64 → Nat

/-- `GetStatus` (server.go 120-259), restricted to the network counters
(192-211) and the public-IP cache (224-230); the other probes fill fields that
depend on neither the previous snapshot nor the cache. Returns the service after
the call, the snapshot, and the HTTP requests made. -/
def GetStatus (s : ServerService) (lastStatus : Option Status) (env : StatusEnv) :
    ServerService × Status × List Event :=
  let now := env.now
  let (sent, recv, up, down) : Nat × Nat × Nat × Nat :=
    match env.ioCounters with
    | some (ioStat :: _) =>
      match lastStatus with
      | some last =>
        let duration := now - last.T
        let seconds := F64.div (F64.ofInt duration) (F64.ofInt 1000000000)
        let up := F64.toUint64 env.conv
          (F64.div (F64.ofInt (sub64 ioStat.BytesSent last.NetTrafficSent)) seconds)
        let down := F64.toUint64 env.conv
          (F64.div (F64.ofInt (sub64 ioStat.BytesRecv last.NetTrafficRecv)) seconds)
        (ioStat.BytesSent, ioStat.BytesRecv, up, down)
      | none => (ioStat.BytesSent, ioStat.BytesRecv, 0, 0)
    | _ => (0, 0, 0, 0)
  let (s1, lookups) : ServerService × List Event :=
    if s.cachedIPv4 = "" ∨ s.cachedIPv6 = "" then
      ({ cachedIPv4 := getPublicIP (env.http "https://api.ipify.org"),
         cachedIPv6 := getPublicIP (env.http "https://api6.ipify.org") },
       [Event.httpGet "https://api.ipify.org", Event.httpGet "https://api6.ipify.org"])
    else (s, [])
  (s1,
   { T := now, NetIOUp := up, NetIODown := down, NetTrafficSent := sent,
     NetTrafficRecv := recv, PublicIPv4 := s1.cachedIPv4, PublicIPv6 := s1.cachedIPv6 },
   lookups)

/-- Successive calls of `GetStatus` on one service, each given the previous
snapshot as the polling caller does: the snapshots and the requests of each call. -/
def pollStatus : ServerService → Option Status → List StatusEnv →
    List (Status × List Event)
  | _, _, [] => []
  | s, last, env :: envs =>
    match GetStatus s last env with
    | (s1, status, evs) => (status, evs) :: pollStatus s1 (some status) envs

/-! ### Process supervisor: binary replacement -/

/-- What the host answers during `downloadXRay`: `runtime.GOOS`, `runtime.GOARCH`,
and whether `http.Get`, `os.Create` and `io.Copy` succeed. -/
structure DownloadEnv where
  GOOS : String
  GOARCH : String
  httpGetOk : Bool
  createOk : Bool
  copyOk : Bool
  deriving DecidableEq, Repr

/-- The `switch arch` of `downloadXRay` (server.go 337-352); it has no `default`
case, so any other string is kept as it is. -/
def archName (arch : String) : String :=
  if arch = "amd64" then "64"
  else if arch = "arm64" then "arm64-v8a"
  else if arch = "armv7" then "arm32-v7a"
  else if arch = "armv6" then "arm32-v6"
  else if arch = "armv5" then "arm32-v5"
  else if arch = "386" then "32"
  else if arch = "s390x" then "s390x"
  else arch

/-- `downloadXRay` (server.go 328-375): the file name or an error, and the calls
made. -/
def downloadXRay (env : DownloadEnv) (version : String) :
    Except String String × List Event :=
  let osName := if env.GOOS = "darwin" then "macos" else env.GOOS
  let arch := archName env.GOARCH
  let fileName := "Xray-" ++ osName ++ "-" ++ arch ++ ".zip"
  let url := "https://github.com/XTLS/Xray-core/releases/download/" ++ version ++ "/" ++ fileName
  if env.httpGetOk = false then (Except.error "http.Get failed", [Event.httpGet url])
  else if env.createOk = false then
    (Except.error "os.Create failed",
      [Event.httpGet url, Event.remove fileName, Event.create fileName])
  else if env.copyOk = false then
    (Except.error "io.Copy failed",
      [Event.httpGet url, Event.remove fileName, Event.create fileName, Event.write fileName])
  else
    (Except.ok fileName,
      [Event.httpGet url, Event.remove fileName, Event.create fileName, Event.write fileName])

/-- What the host answers during `UpdateXray`, step by step: the download, then
`os.Open` of the archive, `zipFile.Stat`, `zip.NewReader`, `reader.Open("xray")`,
`os.OpenFile` of the binary and `io.Copy` into it; `binaryPath` is
`xray.GetBinaryPath()`. -/
structure UpdateEnv where
  download : DownloadEnv
  openOk : Bool
  statOk : Bool
  zipOk : Bool
  entryOk : Bool
  binOpenOk : Bool
  binCopyOk : Bool
  binaryPath : String
  deriving DecidableEq, Repr

/-- The closure `copyZipFile` of `UpdateXray` (server.go 409-422). -/
def copyZipFile (env : UpdateEnv) (fileName : String) : Option String × List Event :=
  if env.entryOk = false then (some "reader.Open failed", [])
  else if env.binOpenOk = false then
    (some "os.OpenFile failed", [Event.remove fileName, Event.create fileName])
  else if env.binCopyOk = false then
    (some "io.Copy failed", [Event.remove fileName, Event.create fileName, Event.write fileName])
  else (none, [Event.remove fileName, Event.create fileName, Event.write fileName])

/-- `UpdateXray` (server.go 377-430): the returned error and the calls made. The
two `defer`s run when the function returns, last registered first. -/
def UpdateXray (env : UpdateEnv) (version : String) : Option String × List Event :=
  match downloadXRay env.download version with
  | (Except.error err, evs) => (some err, evs)
  | (Except.ok zipFileName, evs) =>
    if env.openOk = false then (some "os.Open failed", evs)
    else
      -- defer: zipFile.Close(); os.Remove(zipFileName)
      let (err, evs1) : Option String × List Event :=
        if env.statOk = false then (some "zipFile.Stat failed", [])
        else if env.zipOk = false then (some "zip.NewReader failed", [])
        else
          -- s.xrayService.StopXray(); defer: s.xrayService.RestartXray(true)
          let (err, evs2) := copyZipFile env env.binaryPath
          (err, [Event.StopXray] ++ evs2 ++ [Event.RestartXray true])
      (err, evs ++ evs1 ++ [Event.remove zipFileName])

/-! ### Migration pipeline: import -/

open database

/-- The file system: the content of each path that holds a regular file. -/
abbrev FS := String → Option Bytes

/-- The file system with the entry of `path` replaced. -/
def FS.set (fs : FS) (path : String) (v : Option Bytes) : FS :=
  fun q => if q = path then v else fs q

/-- The file system and the calls made so far. -/
structure World where
  fs : FS
  trace : List Event

/-- Append one call to the trace. -/
def World.log (w : World) (e : Event) : World :=
  { w with trace := w.trace ++ [e] }

/-- `os.Remove(path)`; the code ignores its error everywhere. -/
def osRemove (w : World) (path : String) : World :=
  { fs := w.fs.set path none, trace := w.trace ++ [Event.remove path] }

/-- Error of `os.Rename`: the source is missing, or anything else. -/
inductive RenameErr
  | notExist
  | other
  deriving DecidableEq, Repr

/-- `os.Rename(oldpath, newpath)`: fails when `oldpath` is missing or when the
host refuses (`fault`); otherwise `newpath` takes over the file. -/
def osRename (fault : Bool) (w : World) (oldpath newpath : String) :
    World × Option RenameErr :=
  let w1 := w.log (Event.rename oldpath newpath)
  match w.fs oldpath with
  | none => (w1, some RenameErr.notExist)
  | some data =>
    if fault then (w1, some RenameErr.other)
    else ({ w1 with fs := (w.fs.set oldpath none).set newpath (some data) }, none)

/-- Where the host makes a `copyFile` fail, if anywhere: at `os.Stat`, at the
regular-file test, at `os.Open`, at `os.Create`, or in `io.Copy` after `k` bytes
reached the destination. -/
inductive CopyFault
  | ok
  | stat
  | notRegular
  | openSrc
  | create
  | copy (k : Nat)
  deriving DecidableEq, Repr

/-- `copyFile(src, dst)` (server.go 717-737). `os.Create` truncates `dst` before
`io.Copy` writes into it. -/
def copyFile (fault : CopyFault) (w : World) (src dst : String) : World × Option String :=
  match w.fs src with
  | none => (w, some "os.Stat failed")
  | some _ =>
    match fault with
    | CopyFault.stat => (w, some "os.Stat failed")
    | CopyFault.notRegular => (w, some "not a regular file")
    | CopyFault.openSrc => (w, some "os.Open failed")
    | CopyFault.create => (w.log (Event.create dst), some "os.Create failed")
    | CopyFault.copy k =>
      let w1 : World := { fs := w.fs.set dst (some []), trace := w.trace ++ [Event.create dst] }
      let data := (w1.fs src).getD []
      ({ fs := w1.fs.set dst (some (data.take k)), trace := w1.trace ++ [Event.write dst] },
        some "io.Copy failed")
    | CopyFault.ok =>
      let w1 : World := { fs := w.fs.set dst (some []), trace := w.trace ++ [Event.create dst] }
      let data := (w1.fs src).getD []
      ({ fs := w1.fs.set dst (some data), trace := w1.trace ++ [Event.write dst] }, none)

/-- The error returns of `ImportDB`, one per `return` statement. -/
inductive ImportErr
  | createTemp
  | saveUpload
  | closeTemp
  | openCheck
  | checkFormat
  | invalidSQLite
  | replaceDB (cause : String)
  | pgloaderMissing
  | pgloaderFailed
  | openDump
  | psqlFailed
  | unsupportedType
  deriving DecidableEq, Repr

/-- What the configuration and the host answer during one `ImportDB`:
`config.GetDBType()`, `config.GetDBPath()`, the directory and random part of the
name `os.CreateTemp` picks, and the outcome of each fallible call in the order of
the source. -/
structure ImportEnv where
  dbType : String
  dbPath : String
  tempDir : String
  tempRand : String
  createTempOk : Bool
  uploadFault : Option Nat
  closeOk : Bool
  openCheckOk : Bool
  readFault : Bool
  renameFault : Bool
  copyFault : CopyFault
  statBackupOk : Bool
  restoreFault : CopyFault
  whichOk : Bool
  pgloaderOk : Bool
  openDumpOk : Bool
  psqlOk : Bool
  deriving DecidableEq, Repr

/-- `StopXrayService` (server.go 306-314): calls `xrayService.StopXray()`. -/
def StopXrayService (w : World) : World := w.log Event.StopXray

/-- `RestartXrayService` (server.go 316-326): `StopXray()`, then the deferred
`RestartXray(true)`. -/
def RestartXrayService (w : World) : World :=
  (w.log Event.StopXray).log (Event.RestartXray true)

/-- `ImportDB` from the branch on `dbType` to the `return` (server.go 587-713),
followed by the `defer os.Remove(fallbackPath)` registered in the SQLite branch. -/
def importBranch (env : ImportEnv) (isSQLite : Bool) (tempFilePath : String) (w : World) :
    World × Option ImportErr :=
  if env.dbType = "sqlite" then
    if isSQLite = false then (w, some ImportErr.invalidSQLite)
    else
      let dbPath := env.dbPath
      let fallbackPath := dbPath ++ ".backup"
      let w1 := osRemove w fallbackPath
      match osRename env.renameFault w1 dbPath fallbackPath with
      | (w2, errRename) =>
        match copyFile env.copyFault w2 tempFilePath dbPath with
        | (w3, some cause) =>
          let w4 :=
            if (w3.fs fallbackPath).isSome ∧ env.statBackupOk = true then
              (copyFile env.restoreFault w3 fallbackPath dbPath).1
            else w3
          (if errRename = none then osRemove w4 fallbackPath else w4,
            some (ImportErr.replaceDB cause))
        | (w3, none) => (if errRename = none then osRemove w3 fallbackPath else w3, none)
  else if env.dbType = "postgres" then
    if isSQLite then
      let w1 := w.log (Event.exec "which")
      if env.whichOk = false then (w1, some ImportErr.pgloaderMissing)
      else
        let w2 := w1.log (Event.exec "pgloader")
        if env.pgloaderOk = false then (w2, some ImportErr.pgloaderFailed) else (w2, none)
    else
      if env.openDumpOk = false then (w, some ImportErr.openDump)
      else
        let w1 := w.log (Event.exec "psql")
        if env.psqlOk = false then (w1, some ImportErr.psqlFailed) else (w1, none)
  else (w, some ImportErr.unsupportedType)

/-- `ImportDB` from the upload copy to the `return` (server.go 553-713), followed
by the deferred restart when it was registered. -/
def importUploaded (env : ImportEnv) (file : Bytes) (tempFilePath : String) (w : World) :
    World × Option ImportErr :=
  match env.uploadFault with
  | some k =>
    ({ fs := w.fs.set tempFilePath (some (file.take k)),
       trace := w.trace ++ [Event.write tempFilePath] }, some ImportErr.saveUpload)
  | none =>
    let w1 : World :=
      { fs := w.fs.set tempFilePath (some file), trace := w.trace ++ [Event.write tempFilePath] }
    if env.closeOk = false then (w1, some ImportErr.closeTemp)
    else if env.openCheckOk = false then (w1, some ImportErr.openCheck)
    else
      match IsSQLiteDB ⟨(w1.fs tempFilePath).getD [], env.readFault⟩ with
      | (_, some _) => (w1, some ImportErr.checkFormat)
      | (isSQLite, none) =>
        let w2 := StopXrayService w1
        match importBranch env isSQLite tempFilePath w2 with
        | (w3, err) => (RestartXrayService w3, err)

/-- `ImportDB` (server.go 540-714). `os.CreateTemp("", "dbimport-*.tmp")` opens a
new file exclusively, so a name that is already taken is never returned; the
deferred `os.Remove(tempFilePath)` runs last. -/
def ImportDB (env : ImportEnv) (file : Bytes) (w : World) : World × Option ImportErr :=
  let tempFilePath := env.tempDir ++ "/dbimport-" ++ env.tempRand ++ ".tmp"
  if env.createTempOk = false ∨ (w.fs tempFilePath).isSome then (w, some ImportErr.createTemp)
  else
    let w1 : World :=
      { fs := w.fs.set tempFilePath (some []),
        trace := w.trace ++ [Event.createTemp tempFilePath] }
    match importUploaded env file tempFilePath w1 with
    | (w2, err) => (osRemove w2 tempFilePath, err)

/-- Whether a call touches `path` by removing, renaming, creating or writing. -/
def Event.modifies (path : String) : Event → Bool
  | Event.remove p => p = path
  | Event.rename a b => a = path ∨ b = path
  | Event.create p => p = path
  | Event.write p => p = path
  | Event.createTemp p => p = path
  | _ => false

/-! ### Notions of the specification -/

/-- A decimal numeral, in the words of the specification: a non-empty string of
the characters `0` to `9`. -/
def IsNumeral (s : List Char) : Prop := s ≠ [] ∧ ∀ c ∈ s, '0' ≤ c ∧ c ≤ '9'

/-- The number a decimal numeral denotes (most significant digit first). -/
def numeralValue (s : List Char) : Nat :=
  Nat.ofDigits 10 (s.reverse.map fun c => c.toNat - '0'.toNat)

/-- A decimal integer with an optional sign, what `strconv.Atoi` reads: a numeral,
or a numeral after one `+` or one `-`. -/
def IsSignedNumeral (s : List Char) : Prop :=
  ∃ d, IsNumeral d ∧ (s = d ∨ s = '+' :: d ∨ s = '-' :: d)

/-! ### Concrete inputs -/

/-- The four tags of the version-filtering example. -/
def exampleReleases : List Release :=
  [⟨"v25.3.2"⟩, ⟨"v25.3.3"⟩, ⟨"v26.0.0"⟩, ⟨"v25.3"⟩]

/-- A live store file: a SQLite header followed by three bytes of content. -/
def liveStore : Bytes := signature ++ [1, 2, 3]

/-- A host whose only file is the live store at `/etc/x-ui/x-ui.db`. -/
def storeWorld : World :=
  { fs := fun p => if p = "/etc/x-ui/x-ui.db" then some liveStore else none, trace := [] }

/-- An uploaded artifact recognised as SQLite. -/
def artifact : Bytes := signature ++ [7, 7, 7, 7, 7, 7]

/-- The artifact with the first byte of its signature changed (`S` to `R`). -/
def corruptedArtifact : Bytes := artifact.set 0 82

/-- An import into the SQLite backend on a host where every call succeeds. -/
def sqliteEnv : ImportEnv :=
  { dbType := "sqlite", dbPath := "/etc/x-ui/x-ui.db", tempDir := "/tmp", tempRand := "42",
    createTempOk := true, uploadFault := none, closeOk := true, openCheckOk := true,
    readFault := false, renameFault := false, copyFault := CopyFault.ok,
    statBackupOk := true, restoreFault := CopyFault.ok,
    whichOk := true, pgloaderOk := true, openDumpOk := true, psqlOk := true }

/-- The same import on a volume with four free bytes: every `io.Copy` into the
store path stops after four bytes, the copy of the artifact and the copy that
restores the backup alike. -/
def diskFullEnv : ImportEnv :=
  { sqliteEnv with copyFault := CopyFault.copy 4, restoreFault := CopyFault.copy 4 }

/-- The same import with an unwritable destination: every `os.Create` of the store
path fails, in the copy of the artifact and in the copy that restores the backup. -/
def unwritableEnv : ImportEnv :=
  { sqliteEnv with copyFault := CopyFault.create, restoreFault := CopyFault.create }

/-- A previous snapshot taken at instant `t` with the given cumulative counters. -/
def snapshotAt (t : Int) (sent recv : Nat) : Status :=
  { T := t, NetIOUp := 0, NetIODown := 0, NetTrafficSent := sent, NetTrafficRecv := recv,
    PublicIPv4 := "N/A", PublicIPv6 := "N/A" }

/-- A host at instant `now` whose first interface reports the given cumulative
counters and whose network is unreachable. -/
def counterEnv (conv : F64 → Nat) (now : Int) (sent recv : Nat) : StatusEnv :=
  { now := now, ioCounters := some [⟨sent, recv⟩], http := fun _ => HttpResult.getErr,
    conv := conv }

/-- A service whose first sample found the network unreachable. -/
def polledService : ServerService := { cachedIPv4 := "N/A", cachedIPv6 := "N/A" }

/-- A fresh service: both cache fields hold the zero value of a Go string. -/
def freshService : ServerService := { cachedIPv4 := "", cachedIPv6 := "" }

/-- A host at instant `now` whose network is unreachable: every lookup fails. -/
def offlineEnv (now : Int) : StatusEnv :=
  { now := now, ioCounters := none, http := fun _ => HttpResult.getErr,
    conv := fun _ => 0 }

/-- A host at instant `now` whose network answers every lookup with an address. -/
def onlineEnv (now : Int) : StatusEnv :=
  { now := now, ioCounters := none,
    http := fun url =>
      if url = "https://api.ipify.org" then HttpResult.body "203.0.113.7"
      else HttpResult.body "2001:db8::7",
    conv := fun _ => 0 }

/-- A Linux host of the given architecture on which every call succeeds. -/
def linuxEnv (arch : String) : DownloadEnv :=
  { GOOS := "linux", GOARCH := arch, httpGetOk := true, createOk := true, copyOk := true }

/-- An update on an amd64 Linux host whose download request fails. -/
def failedDownloadEnv : UpdateEnv :=
  { download := { linuxEnv "amd64" with httpGetOk := false },
    openOk := true, statOk := true, zipOk := true, entryOk := true, binOpenOk := true,
    binCopyOk := true, binaryPath := "bin/xray-linux-amd64" }

/-- An update on an amd64 Linux host whose archive lacks the entry `xray`. -/
def missingEntryEnv : UpdateEnv :=
  { download := linuxEnv "amd64",
    openOk := true, statOk := true, zipOk := true, entryOk := false, binOpenOk := true,
    binCopyOk := true, binaryPath := "bin/xray-linux-amd64" }

/-- The import of `sqliteEnv` with an artifact file that can no longer be opened
when it is to be copied over the store. -/
def unreadableTempEnv : ImportEnv :=
  { sqliteEnv with copyFault := CopyFault.openSrc }

/-- Whether a call addresses the supervised process (`StopXray`, `RestartXray`). -/
def Event.isXray : Event → Bool
  | Event.StopXray => true
  | Event.RestartXray _ => true
  | _ => false

/-- The world `w2` continues `w1` by calls none of which addresses the supervised
process. -/
def World.quietlyExtends (w1 w2 : World) : Prop :=
  ∃ evs, w2.trace = w1.trace ++ evs ∧ ∀ e ∈ evs, e.isXray = false

end service

end XUI

/-! ## Theorems -/

namespace XUI

namespace database

theorem signature_length : signature.length = 16 := rfl

/-- On a readable file of at least 16 bytes the buffer compared with the signature
is exactly the first 16 bytes of the file. -/
theorem IsSQLiteDB_of_long (data : Bytes) (h : 16 ≤ data.length) :
    IsSQLiteDB ⟨data, false⟩ = (decide (data.take 16 = signature), none) := by
  have hlen : (data.take 16).length = 16 := by simp [List.length_take, h]
  simp [IsSQLiteDB, ReaderAt.ReadAt, makeBuf, signature_length, hlen, List.drop_replicate]

/-- Changing one entry of the signature gives a different byte string. -/
theorem signature_set_ne (i v : Nat) (hi : i < 16) (hv : signature[i]? ≠ some v) :
    signature.set i v ≠ signature := by
  intro h
  apply hv
  have h1 : (signature.set i v)[i]? = some v := by
    simp [List.getElem?_set, signature_length, hi]
  rw [h] at h1
  exact h1

/-- On a readable file shorter than 16 bytes the buffer compared with the signature
is the file followed by the zero bytes the fresh buffer already held. -/
theorem IsSQLiteDB_of_short (data : Bytes) (h : data.length < 16) :
    IsSQLiteDB ⟨data, false⟩ =
      (decide (data ++ List.replicate (16 - data.length) 0 = signature), none) := by
  have htake : data.take 16 = data := List.take_of_length_le (by omega)
  have hrep : List.drop data.length (List.replicate 16 (0 : Nat)) =
      List.replicate (16 - data.length) 0 := List.drop_replicate _ _ _
  simp only [IsSQLiteDB, ReaderAt.ReadAt, makeBuf, signature_length, List.drop_zero,
    List.length_replicate, htake, hrep, h, if_true]
  simp

/-- What `IsSQLiteDB` accepts among readable files: those whose first 16 bytes are
the signature, and the 15-byte file made of the signature without its last byte. -/
theorem IsSQLiteDB_true_iff (data : Bytes) :
    IsSQLiteDB ⟨data, false⟩ = (true, none) ↔
      data.take 16 = signature ∨ data = signature.take 15 := by
  by_cases h : 16 ≤ data.length
  · rw [IsSQLiteDB_of_long _ h]
    simp only [Prod.mk.injEq, decide_eq_true_eq, and_true]
    constructor
    · exact fun h1 => Or.inl h1
    · rintro (h1 | h1)
      · exact h1
      · rw [h1] at h
        exact absurd h (by decide)
  · have hlt : data.length < 16 := by omega
    rw [IsSQLiteDB_of_short _ hlt]
    simp only [Prod.mk.injEq, decide_eq_true_eq, and_true]
    constructor
    · intro h1
      right
      have hdrop : signature.drop data.length = List.replicate (16 - data.length) 0 := by
        rw [← h1]
        simp
      have htake : signature.take data.length = data := by
        rw [← h1]
        simp
      obtain ⟨n, hn⟩ : ∃ n, data.length = n := ⟨_, rfl⟩
      rw [hn] at hdrop htake hlt
      rw [← htake]
      interval_cases n <;> first | rfl | exact absurd hdrop (by decide)
    · rintro (h1 | h1)
      · have := congrArg List.length h1
        rw [List.length_take, signature_length] at this
        omega
      · subst h1
        decide

/-- C3 (evaluation at the failing input): the 15-byte file `SQLite format 3`,
which lacks the closing NUL of the signature and is shorter than 16 bytes, is
reported as SQLite without error; the zero padding of the fresh buffer supplies
the missing byte. The full signature is accepted and the empty file rejected. -/
theorem C3_short_file_accepted :
    (signature.take 15).length = 15 ∧
    signature.take 15 = "SQLite format 3".toList.map Char.toNat ∧
    IsSQLiteDB ⟨signature.take 15, false⟩ = (true, none) ∧
    IsSQLiteDB ⟨signature, false⟩ = (true, none) ∧
    IsSQLiteDB ⟨[], false⟩ = (false, none) := by
  refine ⟨by decide, by decide, by decide, by decide, by decide⟩

/-- C4: for a readable file of at least 16 bytes that starts with the signature,
overwriting the byte at any index `i < 16` with a different value makes
`IsSQLiteDB` answer false, without error. -/
theorem C4_corrupted_signature_rejected (data : Bytes) (i v : Nat)
    (hlen : 16 ≤ data.length) (hsig : data.take 16 = signature)
    (hi : i < 16) (hv : data[i]? ≠ some v) :
    IsSQLiteDB ⟨data.set i v, false⟩ = (false, none) := by
  have hlen2 : 16 ≤ (data.set i v).length := by simpa using hlen
  rw [IsSQLiteDB_of_long _ hlen2]
  have hsv : signature[i]? ≠ some v := by
    rw [← hsig, List.getElem?_take]
    simpa [hi] using hv
  have hne : (data.set i v).take 16 ≠ signature := by
    rw [List.set_take, hsig]
    simpa [hi] using signature_set_ne i v hi hsv
  simp [hne]

/-- C4 witness: flipping the low bit of the first byte of a 20-byte SQLite header. -/
theorem C4_corrupted_signature_rejected_witness :
    IsSQLiteDB ⟨(signature ++ [1, 2, 3, 4]).set 0 82, false⟩ = (false, none) :=
  C4_corrupted_signature_rejected (signature ++ [1, 2, 3, 4]) 0 82
    (by decide) (by decide) (by decide) (by decide)

end database

end XUI

namespace XUI

namespace service

open database golib

/-- A name ending in `.tmp` is never a name ending in `.backup`. -/
theorem tmp_ne_backup (a b : String) : a ++ ".tmp" ≠ b ++ ".backup" := by
  intro h
  have h1 := congrArg String.data h
  simp only [String.data_append] at h1
  have h2 := congrArg List.reverse h1
  simp [List.reverse_append] at h2

theorem FS.set_same (fs : FS) (p : String) (v : Option Bytes) : (fs.set p v) p = v := by
  simp [FS.set]

theorem FS.set_other (fs : FS) (p q : String) (v : Option Bytes) (h : q ≠ p) :
    (fs.set p v) q = fs q := by
  simp [FS.set, h]

/-- C2: with the SQLite backend, an artifact that `IsSQLiteDB` does not classify as
SQLite makes `ImportDB` return an error; none of the calls it makes removes,
renames, creates or writes the store path or its `.backup` path, and both hold
the same bytes after the call as before. The temporary file is a new file, so its
name is not the store path (this is automatic when the store file exists). -/
theorem C2_format_mismatch_untouched (env : ImportEnv) (file : Bytes) (w : World)
    (hType : env.dbType = "sqlite")
    (hNot : (IsSQLiteDB ⟨file, env.readFault⟩).1 = false)
    (hFresh : w.fs env.dbPath ≠ none ∨
      env.tempDir ++ "/dbimport-" ++ env.tempRand ++ ".tmp" ≠ env.dbPath) :
    (ImportDB env file w).2 ≠ none ∧
    (∃ evs, (ImportDB env file w).1.trace = w.trace ++ evs ∧
      ∀ e ∈ evs, e.modifies env.dbPath = false ∧
        e.modifies (env.dbPath ++ ".backup") = false) ∧
    (ImportDB env file w).1.fs env.dbPath = w.fs env.dbPath ∧
    (ImportDB env file w).1.fs (env.dbPath ++ ".backup") = w.fs (env.dbPath ++ ".backup") := by
  have hB : env.dbPath ++ ".backup" ≠ env.tempDir ++ "/dbimport-" ++ env.tempRand ++ ".tmp" :=
    fun h => tmp_ne_backup _ _ h.symm
  by_cases hC : env.createTempOk = false ∨
      (w.fs (env.tempDir ++ "/dbimport-" ++ env.tempRand ++ ".tmp")).isSome
  · simp only [ImportDB, if_pos hC]
    exact ⟨by simp, ⟨[], by simp, by simp⟩, trivial, trivial⟩
  · have hD : env.dbPath ≠ env.tempDir ++ "/dbimport-" ++ env.tempRand ++ ".tmp" := by
      intro h
      rcases hFresh with h1 | h1
      · apply hC
        right
        rw [← h]
        cases hfs : w.fs env.dbPath with
        | none => exact absurd hfs h1
        | some _ => rfl
      · exact h1 h.symm
    rcases hres : IsSQLiteDB ⟨file, env.readFault⟩ with ⟨b, eo⟩
    rw [hres] at hNot
    simp only at hNot
    subst hNot
    simp only [ImportDB, if_neg hC, importUploaded, StopXrayService, RestartXrayService,
      importBranch, World.log, osRemove, FS.set_same, Option.getD_some, hres, hType]
    cases env.uploadFault <;> cases env.closeOk <;> cases env.openCheckOk <;> cases eo <;>
      simp [FS.set, hB, hD, Event.modifies, hB.symm, hD.symm]

/-- C2 witness: the artifact with one signature byte changed, imported into the
SQLite backend of a host holding a live store. -/
theorem C2_format_mismatch_untouched_witness :
    (ImportDB sqliteEnv corruptedArtifact storeWorld).2 = some ImportErr.invalidSQLite ∧
    (ImportDB sqliteEnv corruptedArtifact storeWorld).1.fs "/etc/x-ui/x-ui.db" =
      some liveStore :=
  ⟨by decide,
   (C2_format_mismatch_untouched sqliteEnv corruptedArtifact storeWorld rfl (by decide)
      (Or.inl (by decide))).2.2.1⟩

/-- C1 (evaluation at two failing inputs). The live store exists and the artifact
is recognised as SQLite. On a full volume the copy of the artifact fails, the
restoring copy fails the same way, and the deferred removal deletes the backup:
`ImportDB` returns its error with the store path holding only the first four
bytes of the old store and no backup left. With an unwritable destination both
copies fail at `os.Create` and the store path is left without a file. -/
theorem C1_failed_copy_loses_store :
    storeWorld.fs "/etc/x-ui/x-ui.db" = some liveStore ∧
    IsSQLiteDB ⟨artifact, false⟩ = (true, none) ∧
    (ImportDB diskFullEnv artifact storeWorld).2 =
      some (ImportErr.replaceDB "io.Copy failed") ∧
    (ImportDB diskFullEnv artifact storeWorld).1.fs "/etc/x-ui/x-ui.db" =
      some [83, 81, 76, 105] ∧
    (ImportDB diskFullEnv artifact storeWorld).1.fs "/etc/x-ui/x-ui.db.backup" = none ∧
    (ImportDB unwritableEnv artifact storeWorld).2 =
      some (ImportErr.replaceDB "os.Create failed") ∧
    (ImportDB unwritableEnv artifact storeWorld).1.fs "/etc/x-ui/x-ui.db" = none ∧
    (ImportDB unwritableEnv artifact storeWorld).1.fs "/etc/x-ui/x-ui.db.backup" = none := by
  refine ⟨by decide, by decide, by decide, by decide, by decide, by decide, by decide,
    by decide⟩

/-- The calls `ImportDB` makes on the full volume, in order. -/
theorem ImportDB_diskFull_trace :
    (ImportDB diskFullEnv artifact storeWorld).1.trace =
      [Event.createTemp "/tmp/dbimport-42.tmp", Event.write "/tmp/dbimport-42.tmp",
       Event.StopXray,
       Event.remove "/etc/x-ui/x-ui.db.backup",
       Event.rename "/etc/x-ui/x-ui.db" "/etc/x-ui/x-ui.db.backup",
       Event.create "/etc/x-ui/x-ui.db", Event.write "/etc/x-ui/x-ui.db",
       Event.create "/etc/x-ui/x-ui.db", Event.write "/etc/x-ui/x-ui.db",
       Event.remove "/etc/x-ui/x-ui.db.backup",
       Event.StopXray, Event.RestartXray true,
       Event.remove "/tmp/dbimport-42.tmp"] := by
  decide

end service

end XUI

namespace XUI

namespace golib

theorem Split_ne_nil (s : List Char) (sep : Char) : Split s sep ≠ [] := by
  induction s with
  | nil => simp [Split]
  | cons c cs ih =>
    simp only [Split]
    split_ifs
    · simp
    · cases h : Split cs sep with
      | nil => exact absurd h ih
      | cons p ps => simp

/-- A string with `n` separators splits into `n + 1` pieces. -/
theorem Split_length (s : List Char) (sep : Char) :
    (Split s sep).length = s.count sep + 1 := by
  induction s with
  | nil => simp [Split]
  | cons c cs ih =>
    simp only [Split]
    split_ifs with h
    · subst h
      simp [ih]
    · have hc : (c == sep) = false := by simpa using h
      cases hs : Split cs sep with
      | nil => exact absurd hs (Split_ne_nil cs sep)
      | cons p ps =>
        rw [hs] at ih
        simp [List.count_cons, hc, ← ih]

/-- A string without the separator is its own single piece. -/
theorem Split_of_not_mem (a : List Char) (sep : Char) (h : sep ∉ a) :
    Split a sep = [a] := by
  induction a with
  | nil => simp [Split]
  | cons c cs ih =>
    have hc : c ≠ sep := fun e => h (by simp [e])
    have hcs : sep ∉ cs := fun e => h (by simp [e])
    simp [Split, hc, ih hcs]

/-- The first piece ends at the first separator. -/
theorem Split_append (a rest : List Char) (sep : Char) (h : sep ∉ a) :
    Split (a ++ sep :: rest) sep = a :: Split rest sep := by
  induction a with
  | nil => simp [Split]
  | cons c cs ih =>
    have hc : c ≠ sep := fun e => h (by simp [e])
    have hcs : sep ∉ cs := fun e => h (by simp [e])
    simp [Split, hc, ih hcs]

/-- Joining the pieces with the separator gives the string back. -/
theorem intercalate_Split (s : List Char) (sep : Char) :
    List.intercalate [sep] (Split s sep) = s := by
  induction s with
  | nil => simp [Split, List.intercalate]
  | cons c cs ih =>
    simp only [Split]
    split_ifs with h
    · subst h
      cases hs : Split cs c with
      | nil => exact absurd hs (Split_ne_nil cs c)
      | cons p ps =>
        rw [hs] at ih
        simp only [List.intercalate, List.intersperse, List.flatten] at ih ⊢
        simp [ih]
    · cases hs : Split cs sep with
      | nil => exact absurd hs (Split_ne_nil cs sep)
      | cons p ps =>
        rw [hs] at ih
        cases ps with
        | nil =>
          simp only [List.intercalate, List.intersperse, List.flatten] at ih ⊢
          simpa using ih
        | cons q qs =>
          simp only [List.intercalate, List.intersperse, List.flatten] at ih ⊢
          simpa using ih

theorem TrimPrefix_v_cons (t : List Char) : TrimPrefix ('v' :: t) ['v'] = t := by
  simp [TrimPrefix, List.isPrefixOf]

theorem TrimPrefix_v_of_head_ne (s : List Char) (h : s.head? ≠ some 'v') :
    TrimPrefix s ['v'] = s := by
  cases s with
  | nil => simp [TrimPrefix, List.isPrefixOf]
  | cons c cs =>
    have hc : c ≠ 'v' := by simpa using h
    simp [TrimPrefix, List.isPrefixOf, Ne.symm hc]

/-- Removing the leading `v` removes no dot. -/
theorem TrimPrefix_v_count_dot (s : List Char) :
    (TrimPrefix s ['v']).count '.' = s.count '.' := by
  cases s with
  | nil => simp [TrimPrefix, List.isPrefixOf]
  | cons c cs =>
    by_cases hc : c = 'v'
    · subst hc
      rw [TrimPrefix_v_cons]
      simp [List.count_cons]
    · rw [TrimPrefix_v_of_head_ne _ (by simpa using hc)]

/-- The string is the trimmed string, or `v` followed by it. -/
theorem TrimPrefix_v_cases (s : List Char) :
    s = TrimPrefix s ['v'] ∨ s = 'v' :: TrimPrefix s ['v'] := by
  cases s with
  | nil => left; simp [TrimPrefix, List.isPrefixOf]
  | cons c cs =>
    by_cases hc : c = 'v'
    · subst hc
      right
      rw [TrimPrefix_v_cons]
    · left
      rw [TrimPrefix_v_of_head_ne _ (by simpa using hc)]

theorem isDigit_iff (c : Char) : c.isDigit = true ↔ '0' ≤ c ∧ c ≤ '9' := by
  simp only [Char.isDigit, Bool.and_eq_true, decide_eq_true_eq, Char.le_def, ge_iff_le]
  constructor
  · rintro ⟨h1, h2⟩
    exact ⟨h1, h2⟩
  · rintro ⟨h1, h2⟩
    exact ⟨h1, h2⟩

theorem foldl_digits (s : List Char) (n : Nat) :
    s.foldl (fun n c => n * 10 + digitVal c) n =
      n * 10 ^ s.length + Nat.ofDigits 10 (s.reverse.map digitVal) := by
  induction s generalizing n with
  | nil => simp
  | cons c cs ih =>
    simp only [List.foldl_cons, ih, List.reverse_cons, List.map_append, List.map_cons,
      List.map_nil, Nat.ofDigits_append, Nat.ofDigits_singleton, List.length_map,
      List.length_reverse, List.length_cons]
    ring

end golib

end XUI

namespace XUI

namespace golib

theorem digitVal_eq (c : Char) : digitVal c = c.toNat - '0'.toNat := rfl

theorem parseDigits_of_numeral (a : List Char) (h : service.IsNumeral a) :
    parseDigits a = some (service.numeralValue a) := by
  obtain ⟨hne, hd⟩ := h
  have hall : a.all Char.isDigit = true := by
    rw [List.all_eq_true]
    intro c hc
    exact (isDigit_iff c).2 (hd c hc)
  simp only [parseDigits, hne, ne_eq, not_false_eq_true, hall, and_self, if_true,
    foldl_digits, service.numeralValue]
  simp [digitVal_eq]
  rfl

theorem numeral_of_parseDigits (s : List Char) (n : Nat) (h : parseDigits s = some n) :
    service.IsNumeral s := by
  unfold parseDigits at h
  split_ifs at h with hc
  obtain ⟨hne, hall⟩ := hc
  refine ⟨hne, fun c hc => (isDigit_iff c).1 ?_⟩
  rw [List.all_eq_true] at hall
  exact hall c hc

theorem numeral_head (a : List Char) (h : service.IsNumeral a) :
    ∃ c cs, a = c :: cs ∧ '0' ≤ c ∧ c ≤ '9' := by
  obtain ⟨hne, hd⟩ := h
  cases a with
  | nil => exact absurd rfl hne
  | cons c cs => exact ⟨c, cs, rfl, hd c (by simp)⟩

theorem Atoi_of_numeral (w : Nat) (a : List Char) (h : service.IsNumeral a)
    (hr : service.numeralValue a < 2 ^ (w - 1)) :
    Atoi w a = some (service.numeralValue a : Int) := by
  obtain ⟨c, cs, rfl, h0, h9⟩ := numeral_head a h
  have hp := parseDigits_of_numeral _ h
  unfold Atoi
  split
  · next t heq =>
    injection heq with hc _
    subst hc
    exact absurd h0 (by decide)
  · next t heq =>
    injection heq with hc _
    subst hc
    exact absurd h0 (by decide)
  · simp [hp, hr]

theorem signed_of_Atoi (w : Nat) (s : List Char) (n : Int) (h : Atoi w s = some n) :
    service.IsSignedNumeral s := by
  unfold Atoi at h
  split at h
  · next t =>
    cases hp : parseDigits t with
    | none => simp [hp] at h
    | some m => exact ⟨t, numeral_of_parseDigits t m hp, Or.inr (Or.inr rfl)⟩
  · next t =>
    cases hp : parseDigits t with
    | none => simp [hp] at h
    | some m => exact ⟨t, numeral_of_parseDigits t m hp, Or.inr (Or.inl rfl)⟩
  · cases hp : parseDigits s with
    | none => simp [hp] at h
    | some m => exact ⟨s, numeral_of_parseDigits s m hp, Or.inl rfl⟩

end golib

end XUI

namespace XUI

namespace service

open golib

/-- The shape of one pass of the loop, for any outcome of the three conversions. -/
theorem loopShape (vs : List String) (t : String) (n : Nat) (x0 x1 x2 : Option Int) :
    (if n ≠ 3 then vs
      else
        match x0, x1, x2 with
        | some major, some minor, some patch =>
          if major > 25 ∨ (major = 25 ∧ minor > 3) ∨ (major = 25 ∧ minor = 3 ∧ patch ≥ 3) then
            vs ++ [t]
          else vs
        | _, _, _ => vs) =
    vs ++
      (if n ≠ 3 then []
      else
        match x0, x1, x2 with
        | some major, some minor, some patch =>
          if major > 25 ∨ (major = 25 ∧ minor > 3) ∨ (major = 25 ∧ minor = 3 ∧ patch ≥ 3) then
            [] ++ [t]
          else []
        | _, _, _ => []) := by
  by_cases hn : n = 3
  · cases x0 <;> cases x1 <;> cases x2 <;> simp [hn]
    split_ifs <;> simp
  · simp [hn]

/-- One pass of the loop appends to `versions` what it appends to the empty list. -/
theorem versionsLoopBody_append (w : Nat) (vs : List String) (r : Release) :
    versionsLoopBody w vs r = vs ++ versionsLoopBody w [] r :=
  loopShape vs r.TagName _ _ _ _

/-- One pass of the loop appends the tag of the release, unchanged, or nothing. -/
theorem versionsLoopBody_nil (w : Nat) (r : Release) :
    versionsLoopBody w [] r = [] ∨ versionsLoopBody w [] r = [r.TagName] := by
  have key : ∀ (n : Nat) (x0 x1 x2 : Option Int),
      (if n ≠ 3 then ([] : List String)
        else
          match x0, x1, x2 with
          | some major, some minor, some patch =>
            if major > 25 ∨ (major = 25 ∧ minor > 3) ∨
                (major = 25 ∧ minor = 3 ∧ patch ≥ 3) then
              [] ++ [r.TagName]
            else []
          | _, _, _ => []) = [] ∨
      (if n ≠ 3 then ([] : List String)
        else
          match x0, x1, x2 with
          | some major, some minor, some patch =>
            if major > 25 ∨ (major = 25 ∧ minor > 3) ∨
                (major = 25 ∧ minor = 3 ∧ patch ≥ 3) then
              [] ++ [r.TagName]
            else []
          | _, _, _ => []) = [r.TagName] := by
    intro n x0 x1 x2
    by_cases hn : n = 3
    · cases x0 <;> cases x1 <;> cases x2 <;> simp only [hn, ne_eq, not_true_eq_false,
        if_false, List.nil_append, true_or]
      split_ifs <;> simp
    · simp [hn]
  exact key _ _ _ _

theorem foldl_versionsLoopBody (w : Nat) (rs : List Release) (acc : List String) :
    rs.foldl (versionsLoopBody w) acc =
      acc ++ (rs.map Release.TagName).filter
        (fun t => decide (versionsLoopBody w [] ⟨t⟩ ≠ [])) := by
  induction rs generalizing acc with
  | nil => simp
  | cons r rs ih =>
    rw [List.foldl_cons, ih, versionsLoopBody_append]
    rcases versionsLoopBody_nil w r with h | h
    · simp [h, List.filter_cons]
    · simp [h, List.filter_cons]

/-- `GetXrayVersions` is a filter of the tags, by what one pass of the loop does. -/
theorem GetXrayVersions_eq_filter (w : Nat) (rs : List Release) :
    GetXrayVersions w rs =
      (rs.map Release.TagName).filter (fun t => decide (versionsLoopBody w [] ⟨t⟩ ≠ [])) := by
  simp [GetXrayVersions, foldl_versionsLoopBody]

theorem mem_GetXrayVersions (w : Nat) (rs : List Release) (t : String) :
    t ∈ GetXrayVersions w rs ↔
      t ∈ rs.map Release.TagName ∧ versionsLoopBody w [] ⟨t⟩ ≠ [] := by
  simp [GetXrayVersions_eq_filter, List.mem_filter]

theorem dot_not_mem_numeral (a : List Char) (h : IsNumeral a) : '.' ∉ a := by
  intro hm
  exact absurd (h.2 _ hm).1 (by decide)

theorem Split_three (a b c : List Char) (ha : IsNumeral a) (hb : IsNumeral b)
    (hc : IsNumeral c) : Split (a ++ '.' :: (b ++ '.' :: c)) '.' = [a, b, c] := by
  rw [Split_append _ _ _ (dot_not_mem_numeral a ha),
    Split_append _ _ _ (dot_not_mem_numeral b hb),
    Split_of_not_mem _ _ (dot_not_mem_numeral c hc)]

theorem TrimPrefix_wellformed (s a rest : List Char) (ha : IsNumeral a)
    (h : s = a ++ rest ∨ s = 'v' :: (a ++ rest)) : TrimPrefix s ['v'] = a ++ rest := by
  rcases h with h | h
  · subst h
    obtain ⟨c, cs, rfl, h0, h9⟩ := numeral_head a ha
    apply TrimPrefix_v_of_head_ne
    simp only [List.cons_append, List.head?_cons, ne_eq, Option.some.injEq]
    intro hc
    subst hc
    exact absurd h9 (by decide)
  · subst h
    exact TrimPrefix_v_cons _

/-- One pass of the loop on a tag of the form `major.minor.patch` or
`vmajor.minor.patch` with numerals in the `int` range: the tag is appended exactly
when the version is at least 25.3.3. -/
theorem versionsLoopBody_wellformed (w : Nat) (t : String) (a b c : List Char)
    (hform : t.toList = a ++ '.' :: (b ++ '.' :: c) ∨
      t.toList = 'v' :: (a ++ '.' :: (b ++ '.' :: c)))
    (ha : IsNumeral a) (hb : IsNumeral b) (hc : IsNumeral c)
    (ra : numeralValue a < 2 ^ (w - 1)) (rb : numeralValue b < 2 ^ (w - 1))
    (rc : numeralValue c < 2 ^ (w - 1)) :
    versionsLoopBody w [] ⟨t⟩ ≠ [] ↔
      (25 < numeralValue a ∨ (numeralValue a = 25 ∧ 3 < numeralValue b) ∨
        (numeralValue a = 25 ∧ numeralValue b = 3 ∧ 3 ≤ numeralValue c)) := by
  have htrim := TrimPrefix_wellformed t.toList a ('.' :: (b ++ '.' :: c)) ha hform
  have hsplit := Split_three a b c ha hb hc
  simp only [versionsLoopBody, htrim, hsplit, List.length_cons, List.length_nil,
    List.getD_cons_zero, List.getD_cons_succ, Atoi_of_numeral w _ ha ra,
    Atoi_of_numeral w _ hb rb, Atoi_of_numeral w _ hc rc]
  simp only [ne_eq, not_true_eq_false, if_false, List.nil_append]
  split_ifs with h
  · simp only [List.cons_ne_nil, not_false_eq_true, true_iff]
    omega
  · simp only [not_true_eq_false, false_iff]
    omega

/-- C5: the list `GetXrayVersions` returns is the list of input tags, in input
order and with their original text, restricted to the tags it returns; a tag of
the form `major.minor.patch` or `vmajor.minor.patch`, with three decimal numerals
in the range of `int`, is returned exactly when `(major, minor, patch)` is at
least `(25, 3, 3)` in lexicographic order; a tag that does not have exactly two
dots (three dot-separated parts) is never returned; and the four tags of the
example yield `v25.3.3` and `v26.0.0`. -/
theorem C5_baseline_filter (w : Nat) (hw : w = 32 ∨ w = 64) (rs : List Release) :
    GetXrayVersions w rs =
      (rs.map Release.TagName).filter (fun t => decide (t ∈ GetXrayVersions w rs)) ∧
    (∀ (t : String) (a b c : List Char), t ∈ rs.map Release.TagName →
      (t.toList = a ++ '.' :: (b ++ '.' :: c) ∨
        t.toList = 'v' :: (a ++ '.' :: (b ++ '.' :: c))) →
      IsNumeral a → IsNumeral b → IsNumeral c →
      numeralValue a < 2 ^ (w - 1) → numeralValue b < 2 ^ (w - 1) →
      numeralValue c < 2 ^ (w - 1) →
      (t ∈ GetXrayVersions w rs ↔
        (toLex ((25 : ℕ), toLex ((3 : ℕ), (3 : ℕ))) : ℕ ×ₗ ℕ ×ₗ ℕ) ≤
          toLex (numeralValue a, toLex (numeralValue b, numeralValue c)))) ∧
    (∀ t : String, t.toList.count '.' ≠ 2 → t ∉ GetXrayVersions w rs) ∧
    GetXrayVersions w exampleReleases = ["v25.3.3", "v26.0.0"] := by
  refine ⟨?_, ?_, ?_, ?_⟩
  · conv_lhs => rw [GetXrayVersions_eq_filter]
    apply List.filter_congr
    intro t ht
    simp only [mem_GetXrayVersions, ht, true_and]
  · intro t a b c ht hform ha hb hc ra rb rc
    rw [mem_GetXrayVersions, versionsLoopBody_wellformed w t a b c hform ha hb hc ra rb rc,
      Prod.Lex.le_iff, Prod.Lex.le_iff]
    simp only [ht, true_and]
    constructor
    · rintro (h | ⟨h1, h2⟩ | ⟨h1, h2, h3⟩)
      · exact Or.inl h
      · exact Or.inr ⟨h1.symm, Or.inl h2⟩
      · exact Or.inr ⟨h1.symm, Or.inr ⟨h2.symm, h3⟩⟩
    · rintro (h | ⟨h1, h2 | ⟨h2, h3⟩⟩)
      · exact Or.inl h
      · exact Or.inr (Or.inl ⟨h1.symm, h2⟩)
      · exact Or.inr (Or.inr ⟨h1.symm, h2.symm, h3⟩)
  · intro t hcount hmem
    rw [mem_GetXrayVersions] at hmem
    apply hmem.2
    have hlen : (Split (TrimPrefix t.toList ['v']) '.').length ≠ 3 := by
      rw [Split_length, TrimPrefix_v_count_dot]
      omega
    simp only [versionsLoopBody]
    rw [if_pos hlen]
  · rcases hw with rfl | rfl <;> decide

/-- C5 witness: the example list on a 64-bit platform, and the tag `v26.0.0` of it
read as the numerals 26, 0 and 0. -/
theorem C5_baseline_filter_witness :
    GetXrayVersions 64 exampleReleases = ["v25.3.3", "v26.0.0"] ∧
    ("v26.0.0" ∈ GetXrayVersions 64 exampleReleases ↔
      (toLex ((25 : ℕ), toLex ((3 : ℕ), (3 : ℕ))) : ℕ ×ₗ ℕ ×ₗ ℕ) ≤
        toLex (numeralValue ['2', '6'], toLex (numeralValue ['0'], numeralValue ['0']))) :=
  ⟨(C5_baseline_filter 64 (Or.inr rfl) exampleReleases).2.2.2,
   (C5_baseline_filter 64 (Or.inr rfl) exampleReleases).2.1 "v26.0.0" ['2', '6'] ['0'] ['0']
     (by decide) (Or.inr rfl) (by simp [IsNumeral]) (by simp [IsNumeral])
     (by simp [IsNumeral]) (by simp [numeralValue, Nat.ofDigits])
     (by simp [numeralValue, Nat.ofDigits]) (by simp [numeralValue, Nat.ofDigits])⟩

/-- C6 (counterexample): the tags `v26.-1.0` and `v+26.0.0` are both returned,
although the part `-1` of the first and the part `+26` of the second are not
non-negative decimal numerals. -/
theorem C6_signed_tags_returned :
    GetXrayVersions 64 [⟨"v26.-1.0"⟩, ⟨"v+26.0.0"⟩] = ["v26.-1.0", "v+26.0.0"] ∧
    Split (TrimPrefix "v26.-1.0".toList ['v']) '.' = [['2', '6'], ['-', '1'], ['0']] ∧
    Split (TrimPrefix "v+26.0.0".toList ['v']) '.' = [['+', '2', '6'], ['0'], ['0']] ∧
    ¬ IsNumeral ['-', '1'] ∧ ¬ IsNumeral ['+', '2', '6'] := by
  refine ⟨by decide, by decide, by decide, ?_, ?_⟩
  · intro h
    exact absurd (h.2 '-' (by simp)).1 (by decide)
  · intro h
    exact absurd (h.2 '+' (by simp)).1 (by decide)

/-- C6 (amended): every tag `GetXrayVersions` returns is a tag of the input which,
after removing one optional leading `v`, consists of exactly three dot-separated
parts, each a decimal integer with an optional sign `+` or `-`. -/
theorem C6_returned_tags_signed (w : Nat) (rs : List Release) (t : String)
    (h : t ∈ GetXrayVersions w rs) :
    t ∈ rs.map Release.TagName ∧
    ∃ p0 p1 p2 : List Char,
      (t.toList = p0 ++ '.' :: (p1 ++ '.' :: p2) ∨
        t.toList = 'v' :: (p0 ++ '.' :: (p1 ++ '.' :: p2))) ∧
      IsSignedNumeral p0 ∧ IsSignedNumeral p1 ∧ IsSignedNumeral p2 := by
  rw [mem_GetXrayVersions] at h
  refine ⟨h.1, ?_⟩
  have hne := h.2
  have hjoin := intercalate_Split (TrimPrefix t.toList ['v']) '.'
  simp only [versionsLoopBody] at hne
  split_ifs at hne with hlen
  · exact absurd rfl hne
  · have hlen3 : (Split (TrimPrefix t.toList ['v']) '.').length = 3 := by
      simpa using hlen
    match hs : Split (TrimPrefix t.toList ['v']) '.', hlen3 with
    | [p0, p1, p2], _ =>
      rw [hs] at hne hjoin
      simp only [List.getD_cons_zero, List.getD_cons_succ] at hne
      refine ⟨p0, p1, p2, ?_, ?_⟩
      · have hcore : TrimPrefix t.toList ['v'] = p0 ++ '.' :: (p1 ++ '.' :: p2) := by
          rw [← hjoin]
          simp [List.intercalate, List.intersperse, List.flatten]
        rcases TrimPrefix_v_cases t.toList with h1 | h1
        · left
          rw [h1]
          exact hcore
        · right
          rw [h1, hcore]
      · cases h0 : Atoi w p0 with
        | none => simp [h0] at hne
        | some n0 =>
          cases h1 : Atoi w p1 with
          | none => simp [h0, h1] at hne
          | some n1 =>
            cases h2 : Atoi w p2 with
            | none => simp [h0, h1, h2] at hne
            | some n2 =>
              exact ⟨signed_of_Atoi w p0 n0 h0, signed_of_Atoi w p1 n1 h1,
                signed_of_Atoi w p2 n2 h2⟩

/-- C6 witness: the tag `v26.-1.0`, returned from a one-element release index. -/
theorem C6_returned_tags_signed_witness :
    "v26.-1.0" ∈ [Release.mk "v26.-1.0"].map Release.TagName ∧
    ∃ p0 p1 p2 : List Char,
      ("v26.-1.0".toList = p0 ++ '.' :: (p1 ++ '.' :: p2) ∨
        "v26.-1.0".toList = 'v' :: (p0 ++ '.' :: (p1 ++ '.' :: p2))) ∧
      IsSignedNumeral p0 ∧ IsSignedNumeral p1 ∧ IsSignedNumeral p2 :=
  C6_returned_tags_signed 64 [⟨"v26.-1.0"⟩] "v26.-1.0" (by decide)

end service

end XUI

namespace XUI

namespace service

theorem roundTiesEven_intCast (m : ℤ) : roundTiesEven (m : ℚ) = m := by
  simp [roundTiesEven]

theorem log_two_eq (q : ℚ) (e : ℤ) (hq : 0 < q) (h1 : (2 : ℚ) ^ e ≤ q)
    (h2 : q < (2 : ℚ) ^ (e + 1)) : Int.log 2 q = e := by
  have a1 : e ≤ Int.log 2 q :=
    (Int.zpow_le_iff_le_log (b := 2) (by norm_num) hq).1 (by exact_mod_cast h1)
  have a2 : Int.log 2 q < e + 1 :=
    (Int.lt_zpow_iff_log_lt (b := 2) (by norm_num) hq).1 (by exact_mod_cast h2)
  omega

/-- A positive rational with at most 53 significant bits is a binary64 value:
rounding leaves it as it is. -/
theorem roundF64_exact (q : ℚ) (e m : ℤ) (hq : 0 < q) (h1 : (2 : ℚ) ^ e ≤ q)
    (h2 : q < (2 : ℚ) ^ (e + 1)) (hm : q = m * (2 : ℚ) ^ (e - 52)) : roundF64 q = q := by
  have hne : q ≠ 0 := ne_of_gt hq
  have hpos : (0 : ℚ) < (2 : ℚ) ^ (e - 52) := by positivity
  have hdiv : q / (2 : ℚ) ^ (e - 52) = m := by
    rw [hm]
    field_simp
  simp only [roundF64, hne, if_false, abs_of_pos hq, log_two_eq q e hq h1 h2, hdiv,
    roundTiesEven_intCast]
  exact hm.symm

theorem roundF64_one : roundF64 1 = 1 :=
  roundF64_exact 1 0 (2 ^ 52) (by norm_num) (by norm_num) (by norm_num) (by norm_num)

theorem roundF64_second : roundF64 1000000000 = 1000000000 :=
  roundF64_exact 1000000000 29 (1000000000 * 2 ^ 23) (by norm_num) (by norm_num)
    (by norm_num) (by norm_num)

/-- One second, as `GetStatus` computes it from a duration of `10 ^ 9` ns. -/
theorem seconds_one :
    F64.div (F64.ofInt 1000000000) (F64.ofInt 1000000000) = some 1 := by
  simp [F64.div, F64.ofInt, roundF64_second, roundF64_one]

/-- A quotient by one second is the dividend, rounded once more. -/
theorem div_one_second (d : ℤ) :
    F64.div (F64.ofInt d) (some 1) = some (roundF64 (roundF64 d)) := by
  simp [F64.div, F64.ofInt]

theorem roundF64_500 : roundF64 500 = 500 :=
  roundF64_exact 500 8 (500 * 2 ^ 44) (by norm_num) (by norm_num) (by norm_num)
    (by norm_num)

theorem roundF64_wrapped : roundF64 18446744073709549568 = 18446744073709549568 :=
  roundF64_exact 18446744073709549568 63 (2 ^ 53 - 1) (by norm_num) (by norm_num)
    (by norm_num) (by norm_num)

theorem roundF64_two_pow_64 : roundF64 18446744073709551616 = 18446744073709551616 :=
  roundF64_exact 18446744073709551616 64 (2 ^ 52) (by norm_num) (by norm_num)
    (by norm_num) (by norm_num)

/-- The wrapped difference `2 ^ 64 - 300` has no binary64 value of its own: the
conversion rounds it up to `2 ^ 64`. -/
theorem roundF64_reset : roundF64 18446744073709551316 = 18446744073709551616 := by
  have hlog : Int.log 2 (18446744073709551316 : ℚ) = 63 :=
    log_two_eq _ 63 (by norm_num) (by norm_num) (by norm_num)
  have hfloor : ⌊(18446744073709551316 : ℚ) / 2 ^ (63 - 52 : ℤ)⌋ = 9007199254740991 := by
    rw [Int.floor_eq_iff]
    constructor <;> norm_num
  have habs : |(18446744073709551316 : ℚ)| = 18446744073709551316 := abs_of_pos (by norm_num)
  simp only [roundF64, roundTiesEven, habs, hlog, hfloor]
  norm_num

/-- C7 (evaluation at the failing input). With the previous snapshot taken exactly
one second earlier: sent counters 1000 then 1500 give `NetIO.Up = 500`; sent
counters 4096 then 2048 (a counter reset) give `NetIO.Up = 2 ^ 64 - 2048`, the
wrapped unsigned difference, on every platform; and the counters 1500 then 1200
of the specification give the platform's conversion of the out-of-range value
`2 ^ 64`. None of the two resets is clamped to zero by the code. The received
counters behave the same way. -/
theorem C7_rate_wraps_on_reset (conv : F64 → Nat) :
    (GetStatus polledService (some (snapshotAt 0 1000 1000))
      (counterEnv conv 1000000000 1500 1500)).2.1.NetIOUp = 500 ∧
    (GetStatus polledService (some (snapshotAt 0 4096 4096))
      (counterEnv conv 1000000000 2048 2048)).2.1.NetIOUp = 18446744073709549568 ∧
    (GetStatus polledService (some (snapshotAt 0 4096 4096))
      (counterEnv conv 1000000000 2048 2048)).2.1.NetIODown = 18446744073709549568 ∧
    (GetStatus polledService (some (snapshotAt 0 1500 1500))
      (counterEnv conv 1000000000 1200 1200)).2.1.NetIOUp =
        conv (some 18446744073709551616) := by
  have h1 : sub64 1500 1000 = 500 := by decide
  have h2 : sub64 2048 4096 = 18446744073709549568 := by decide
  have h3 : sub64 1200 1500 = 18446744073709551316 := by decide
  refine ⟨?_, ?_, ?_, ?_⟩
  · simp only [GetStatus, counterEnv, snapshotAt, sub_zero, seconds_one, h1]
    rw [show ((500 : ℕ) : ℤ) = 500 from rfl, div_one_second]
    simp only [Int.cast_ofNat, roundF64_500, F64.toUint64]
    norm_num
    rfl
  · simp only [GetStatus, counterEnv, snapshotAt, sub_zero, seconds_one, h2]
    rw [show ((18446744073709549568 : ℕ) : ℤ) = 18446744073709549568 from rfl, div_one_second]
    simp only [Int.cast_ofNat, roundF64_wrapped, F64.toUint64]
    norm_num
    rfl
  · simp only [GetStatus, counterEnv, snapshotAt, sub_zero, seconds_one, h2]
    rw [show ((18446744073709549568 : ℕ) : ℤ) = 18446744073709549568 from rfl, div_one_second]
    simp only [Int.cast_ofNat, roundF64_wrapped, F64.toUint64]
    norm_num
    rfl
  · simp only [GetStatus, counterEnv, snapshotAt, sub_zero, seconds_one, h3]
    rw [show ((18446744073709551316 : ℕ) : ℤ) = 18446744073709551316 from rfl, div_one_second]
    simp only [Int.cast_ofNat, roundF64_reset, roundF64_two_pow_64, F64.toUint64]
    norm_num

/-- `getPublicIP` never returns the empty string. -/
theorem getPublicIP_ne_empty (resp : HttpResult) : getPublicIP resp ≠ "" := by
  cases resp with
  | getErr => decide
  | readErr => decide
  | body ip =>
    simp only [getPublicIP]
    split_ifs with h
    · decide
    · exact h

/-- After any call of `GetStatus` both cache fields are non-empty, and the snapshot
carries them. -/
theorem GetStatus_cache_filled (s : ServerService) (last : Option Status) (env : StatusEnv) :
    (GetStatus s last env).1.cachedIPv4 ≠ "" ∧ (GetStatus s last env).1.cachedIPv6 ≠ "" ∧
    (GetStatus s last env).2.1.PublicIPv4 = (GetStatus s last env).1.cachedIPv4 ∧
    (GetStatus s last env).2.1.PublicIPv6 = (GetStatus s last env).1.cachedIPv6 := by
  by_cases h : s.cachedIPv4 = "" ∨ s.cachedIPv6 = ""
  · simp only [GetStatus, if_pos h]
    exact ⟨getPublicIP_ne_empty _, getPublicIP_ne_empty _, trivial, trivial⟩
  · simp only [GetStatus, if_neg h]
    rw [not_or] at h
    exact ⟨h.1, h.2, trivial, trivial⟩

/-- With both cache fields non-empty, `GetStatus` makes no request, keeps the
cache, and the snapshot carries the cached values. -/
theorem GetStatus_cached (s : ServerService) (last : Option Status) (env : StatusEnv)
    (h4 : s.cachedIPv4 ≠ "") (h6 : s.cachedIPv6 ≠ "") :
    (GetStatus s last env).1 = s ∧ (GetStatus s last env).2.2 = [] ∧
    (GetStatus s last env).2.1.PublicIPv4 = s.cachedIPv4 ∧
    (GetStatus s last env).2.1.PublicIPv6 = s.cachedIPv6 := by
  have h : ¬(s.cachedIPv4 = "" ∨ s.cachedIPv6 = "") := by
    rw [not_or]
    exact ⟨h4, h6⟩
  simp only [GetStatus, if_neg h]
  exact ⟨trivial, trivial, trivial, trivial⟩

/-- Polling a service whose cache is filled never makes a request. -/
theorem pollStatus_cached (envs : List StatusEnv) (s : ServerService) (last : Option Status)
    (h4 : s.cachedIPv4 ≠ "") (h6 : s.cachedIPv6 ≠ "") :
    (pollStatus s last envs).length = envs.length ∧
    ∀ r ∈ pollStatus s last envs,
      r.2 = [] ∧ r.1.PublicIPv4 = s.cachedIPv4 ∧ r.1.PublicIPv6 = s.cachedIPv6 := by
  induction envs generalizing last with
  | nil => simp [pollStatus]
  | cons env envs ih =>
    obtain ⟨e1, e2, e3, e4⟩ := GetStatus_cached s last env h4 h6
    rcases hg : GetStatus s last env with ⟨s1, status, evs⟩
    rw [hg] at e1 e2 e3 e4
    simp only at e1 e2 e3 e4
    subst e1
    simp only [pollStatus, hg, List.length_cons, List.mem_cons]
    refine ⟨by rw [(ih (some status)).1], ?_⟩
    rintro r (rfl | hr)
    · exact ⟨e2, e3, e4⟩
    · exact (ih (some status)).2 r hr

/-- C8 (counterexample): a fresh service is polled twice; the first call finds the
network unreachable and the snapshot carries the sentinel for both families; on
the second call the network would answer, yet no lookup is made and the snapshot
still carries the sentinel. -/
theorem C8_failed_lookup_not_retried :
    pollStatus freshService none [offlineEnv 0, onlineEnv 1000000000] =
      [({ T := 0, NetIOUp := 0, NetIODown := 0, NetTrafficSent := 0, NetTrafficRecv := 0,
          PublicIPv4 := "N/A", PublicIPv6 := "N/A" },
        [Event.httpGet "https://api.ipify.org", Event.httpGet "https://api6.ipify.org"]),
       ({ T := 1000000000, NetIOUp := 0, NetIODown := 0, NetTrafficSent := 0,
          NetTrafficRecv := 0, PublicIPv4 := "N/A", PublicIPv6 := "N/A" }, [])] ∧
    getPublicIP ((onlineEnv 1000000000).http "https://api.ipify.org") = "203.0.113.7" := by
  refine ⟨by decide, by decide⟩

/-- C8 (amended): in any run of successive `GetStatus` calls on one service, the
first call makes both lookups together when it finds either cache field empty (as
a fresh service has them) and caches what they return, address or sentinel; every
later call makes no lookup at all, for either family, and its snapshot carries
the same two values as the first snapshot. -/
theorem C8_cache_one_shot (s : ServerService) (last : Option Status) (env : StatusEnv)
    (envs : List StatusEnv) :
    ∃ first rest, pollStatus s last (env :: envs) = first :: rest ∧
      rest.length = envs.length ∧
      (s.cachedIPv4 = "" ∨ s.cachedIPv6 = "" →
        first.2 = [Event.httpGet "https://api.ipify.org",
          Event.httpGet "https://api6.ipify.org"] ∧
        first.1.PublicIPv4 = getPublicIP (env.http "https://api.ipify.org") ∧
        first.1.PublicIPv6 = getPublicIP (env.http "https://api6.ipify.org")) ∧
      ∀ r ∈ rest, r.2 = [] ∧ r.1.PublicIPv4 = first.1.PublicIPv4 ∧
        r.1.PublicIPv6 = first.1.PublicIPv6 := by
  obtain ⟨f4, f6, c4, c6⟩ := GetStatus_cache_filled s last env
  have hfirst : s.cachedIPv4 = "" ∨ s.cachedIPv6 = "" →
      (GetStatus s last env).2.2 = [Event.httpGet "https://api.ipify.org",
          Event.httpGet "https://api6.ipify.org"] ∧
      (GetStatus s last env).2.1.PublicIPv4 = getPublicIP (env.http "https://api.ipify.org") ∧
      (GetStatus s last env).2.1.PublicIPv6 =
        getPublicIP (env.http "https://api6.ipify.org") := by
    intro h
    simp only [GetStatus, if_pos h]
    exact ⟨trivial, trivial, trivial⟩
  rcases hg : GetStatus s last env with ⟨s1, status, evs⟩
  rw [hg] at f4 f6 c4 c6 hfirst
  simp only at f4 f6 c4 c6 hfirst
  refine ⟨(status, evs), pollStatus s1 (some status) envs, ?_, ?_, hfirst, ?_⟩
  · simp only [pollStatus, hg]
  · exact (pollStatus_cached envs s1 (some status) f4 f6).1
  · intro r hr
    obtain ⟨h1, h2, h3⟩ := (pollStatus_cached envs s1 (some status) f4 f6).2 r hr
    exact ⟨h1, by rw [h2, c4], by rw [h3, c6]⟩

/-- The calls of `copyZipFile` concern files only. -/
theorem copyZipFile_no_xray (env : UpdateEnv) (fileName : String) :
    Event.StopXray ∉ (copyZipFile env fileName).2 ∧
    Event.RestartXray true ∉ (copyZipFile env fileName).2 := by
  simp only [copyZipFile]
  split_ifs <;> simp

/-- The calls of `downloadXRay` concern the network and files only. -/
theorem downloadXRay_no_xray (env : DownloadEnv) (version : String) :
    Event.StopXray ∉ (downloadXRay env version).2 ∧
    Event.RestartXray true ∉ (downloadXRay env version).2 := by
  simp only [downloadXRay]
  split_ifs <;> simp

/-- `downloadXRay` succeeds exactly when its three fallible calls do. -/
theorem downloadXRay_ok_iff (env : DownloadEnv) (version : String) :
    (∃ f, (downloadXRay env version).1 = Except.ok f) ↔
      (env.httpGetOk = true ∧ env.createOk = true ∧ env.copyOk = true) := by
  simp only [downloadXRay]
  split_ifs with h1 h2 h3 <;> simp_all

/-- C9 (counterexample): the download request fails; `UpdateXray` returns the
error after the single HTTP request, without any call of `RestartXray`. -/
theorem C9_no_restart_when_download_fails :
    UpdateXray failedDownloadEnv "v25.3.3" =
      (some "http.Get failed",
       [Event.httpGet
         "https://github.com/XTLS/Xray-core/releases/download/v25.3.3/Xray-linux-64.zip"]) ∧
    Event.RestartXray true ∉ (UpdateXray failedDownloadEnv "v25.3.3").2 := by
  refine ⟨by decide, by decide⟩

/-- C9 (amended): for every version and every outcome of the steps, `UpdateXray`
either gets through the download, the opening, the `Stat` and the parsing of the
archive, and then calls `StopXray` and, after the extraction of the entry whatever
its outcome, `RestartXray(true)` before it returns and removes the archive; or one
of those steps fails, and it returns an error with neither `StopXray` nor
`RestartXray` called. -/
theorem C9_restart_after_stop (env : UpdateEnv) (version : String) :
    ((env.download.httpGetOk = true ∧ env.download.createOk = true ∧
        env.download.copyOk = true ∧ env.openOk = true ∧ env.statOk = true ∧
        env.zipOk = true) →
      ∃ zipFileName,
        (downloadXRay env.download version).1 = Except.ok zipFileName ∧
        (UpdateXray env version).1 = (copyZipFile env env.binaryPath).1 ∧
        (UpdateXray env version).2 =
          (downloadXRay env.download version).2 ++ [Event.StopXray] ++
            (copyZipFile env env.binaryPath).2 ++
            [Event.RestartXray true, Event.remove zipFileName]) ∧
    (¬(env.download.httpGetOk = true ∧ env.download.createOk = true ∧
        env.download.copyOk = true ∧ env.openOk = true ∧ env.statOk = true ∧
        env.zipOk = true) →
      (UpdateXray env version).1 ≠ none ∧
      Event.StopXray ∉ (UpdateXray env version).2 ∧
      Event.RestartXray true ∉ (UpdateXray env version).2) := by
  have hno := downloadXRay_no_xray env.download version
  have hiff := downloadXRay_ok_iff env.download version
  constructor
  · rintro ⟨h1, h2, h3, h4, h5, h6⟩
    obtain ⟨f, hf⟩ := hiff.2 ⟨h1, h2, h3⟩
    rcases hd : downloadXRay env.download version with ⟨res, evs⟩
    rw [hd] at hf
    simp only at hf
    subst hf
    refine ⟨f, rfl, ?_, ?_⟩
    · simp [UpdateXray, hd, h4, h5, h6]
    · simp [UpdateXray, hd, h4, h5, h6]
  · intro hnot
    rcases hd : downloadXRay env.download version with ⟨res, evs⟩
    rw [hd] at hno hiff
    simp only at hno hiff
    cases res with
    | error e =>
      simp only [UpdateXray, hd]
      exact ⟨by simp, hno.1, hno.2⟩
    | ok f =>
      have hdl := hiff.1 ⟨f, rfl⟩
      have hrest : ¬(env.openOk = true ∧ env.statOk = true ∧ env.zipOk = true) := by
        intro h
        exact hnot ⟨hdl.1, hdl.2.1, hdl.2.2, h.1, h.2.1, h.2.2⟩
      simp only [UpdateXray, hd]
      cases h4 : env.openOk <;> cases h5 : env.statOk <;> cases h6 : env.zipOk <;>
        simp_all

/-- C9 witness: the archive lacks the entry `xray`; the extraction fails after
`StopXray`, and `RestartXray(true)` is still called before the archive is removed. -/
theorem C9_restart_after_stop_witness :
    ∃ zipFileName,
      (downloadXRay missingEntryEnv.download "v25.3.3").1 = Except.ok zipFileName ∧
      (UpdateXray missingEntryEnv "v25.3.3").1 =
        (copyZipFile missingEntryEnv missingEntryEnv.binaryPath).1 ∧
      (UpdateXray missingEntryEnv "v25.3.3").2 =
        (downloadXRay missingEntryEnv.download "v25.3.3").2 ++ [Event.StopXray] ++
          (copyZipFile missingEntryEnv missingEntryEnv.binaryPath).2 ++
          [Event.RestartXray true, Event.remove zipFileName] :=
  (C9_restart_after_stop missingEntryEnv "v25.3.3").1 (by decide)

/-- The calls of `UpdateXray` when the archive lacks the entry `xray`, in order. -/
theorem UpdateXray_missingEntry_trace :
    UpdateXray missingEntryEnv "v25.3.3" =
      (some "reader.Open failed",
       [Event.httpGet
          "https://github.com/XTLS/Xray-core/releases/download/v25.3.3/Xray-linux-64.zip",
        Event.remove "Xray-linux-64.zip", Event.create "Xray-linux-64.zip",
        Event.write "Xray-linux-64.zip",
        Event.StopXray, Event.RestartXray true, Event.remove "Xray-linux-64.zip"]) := by
  decide

/-- C10 (counterexample): on a `riscv64` Linux host, an architecture outside the
table, `downloadXRay` returns no error; it requests the archive named after the
architecture string itself and stores it. -/
theorem C10_unmapped_arch_downloads :
    downloadXRay (linuxEnv "riscv64") "v25.3.3" =
      (Except.ok "Xray-linux-riscv64.zip",
       [Event.httpGet
          "https://github.com/XTLS/Xray-core/releases/download/v25.3.3/Xray-linux-riscv64.zip",
        Event.remove "Xray-linux-riscv64.zip", Event.create "Xray-linux-riscv64.zip",
        Event.write "Xray-linux-riscv64.zip"]) := by
  rfl

/-- C10 (amended): for an architecture string outside the mapping table the
archive is named after the string itself, `downloadXRay` makes the HTTP request
for it first, and returns an error exactly when the request, the creation of the
file or the copy fails, the file name otherwise; for `amd64`, `arm64` and `386`
the archive name uses `64`, `arm64-v8a` and `32`. -/
theorem C10_unmapped_arch_passes_through (env : DownloadEnv) (version : String)
    (h : env.GOARCH ∉ ["amd64", "arm64", "armv7", "armv6", "armv5", "386", "s390x"]) :
    archName env.GOARCH = env.GOARCH ∧
    (downloadXRay env version).2.head? = some (Event.httpGet
      ("https://github.com/XTLS/Xray-core/releases/download/" ++ version ++ "/" ++
        ("Xray-" ++ (if env.GOOS = "darwin" then "macos" else env.GOOS) ++ "-" ++
          env.GOARCH ++ ".zip"))) ∧
    ((downloadXRay env version).1 =
        Except.ok ("Xray-" ++ (if env.GOOS = "darwin" then "macos" else env.GOOS) ++ "-" ++
          env.GOARCH ++ ".zip") ↔
      (env.httpGetOk = true ∧ env.createOk = true ∧ env.copyOk = true)) ∧
    ((∃ e, (downloadXRay env version).1 = Except.error e) ↔
      ¬(env.httpGetOk = true ∧ env.createOk = true ∧ env.copyOk = true)) ∧
    archName "amd64" = "64" ∧ archName "arm64" = "arm64-v8a" ∧ archName "386" = "32" := by
  have harch : archName env.GOARCH = env.GOARCH := by
    simp only [List.mem_cons, List.mem_singleton, List.mem_nil_iff, or_false, not_or] at h
    obtain ⟨h1, h2, h3, h4, h5, h6, h7⟩ := h
    simp [archName, h1, h2, h3, h4, h5, h6, h7]
  refine ⟨harch, ?_, ?_, ?_, by decide, by decide, by decide⟩
  · simp only [downloadXRay, harch]
    split_ifs <;> simp
  · simp only [downloadXRay, harch]
    split_ifs <;> simp_all
  · simp only [downloadXRay, harch]
    split_ifs <;> simp_all

/-- C10 witness: the `riscv64` Linux host. -/
theorem C10_unmapped_arch_passes_through_witness :
    archName "riscv64" = "riscv64" ∧
    (downloadXRay (linuxEnv "riscv64") "v25.3.3").2.head? = some (Event.httpGet
      "https://github.com/XTLS/Xray-core/releases/download/v25.3.3/Xray-linux-riscv64.zip") :=
  ⟨(C10_unmapped_arch_passes_through (linuxEnv "riscv64") "v25.3.3" (by decide)).1,
   by decide⟩

end service

end XUI

namespace XUI

namespace service

open database

/-- Every natural number below `2 ^ 53` is a binary64 value. -/
theorem roundF64_small (d : ℕ) (hd : d < 2 ^ 53) : roundF64 (d : ℚ) = d := by
  rcases Nat.eq_zero_or_pos d with h0 | hpos
  · subst h0
    simp [roundF64]
  · have hne : d ≠ 0 := Nat.pos_iff_ne_zero.mp hpos
    have hlo : 2 ^ Nat.log 2 d ≤ d := Nat.pow_log_le_self 2 hne
    have hhi : d < 2 ^ (Nat.log 2 d + 1) := Nat.lt_pow_succ_log_self (by norm_num) d
    have he : Nat.log 2 d ≤ 52 := by
      have : Nat.log 2 d < 53 := Nat.log_lt_of_lt_pow hne hd
      omega
    refine roundF64_exact (d : ℚ) (Nat.log 2 d : ℤ) ((d * 2 ^ (52 - Nat.log 2 d) : ℕ) : ℤ)
      (by exact_mod_cast hpos) ?_ ?_ ?_
    · rw [zpow_natCast]
      exact_mod_cast hlo
    · rw [show ((Nat.log 2 d : ℤ) + 1) = ((Nat.log 2 d + 1 : ℕ) : ℤ) by push_cast; ring,
        zpow_natCast]
      exact_mod_cast hhi
    · have hz : ((Nat.log 2 d : ℤ) - 52) = -((52 - Nat.log 2 d : ℕ) : ℤ) := by
        rw [Nat.cast_sub he]
        ring
      rw [hz, zpow_neg, zpow_natCast]
      push_cast
      field_simp

theorem sub64_of_le (cur prev : ℕ) (h1 : prev ≤ cur) (h2 : cur < 2 ^ 64) :
    sub64 cur prev = cur - prev := by
  simp only [sub64]
  omega

/-- The rate over exactly one second, for a counter that did not decrease and
grew by less than `2 ^ 53`: the difference of the counters. -/
theorem rate_one_second (conv : F64 → ℕ) (cur prev : ℕ) (h1 : prev ≤ cur)
    (h2 : cur < 2 ^ 64) (h3 : cur - prev < 2 ^ 53) :
    F64.toUint64 conv (F64.div (F64.ofInt (sub64 cur prev)) (some 1)) = cur - prev := by
  rw [sub64_of_le cur prev h1 h2, div_one_second]
  have hc : (((cur - prev : ℕ) : ℤ) : ℚ) = ((cur - prev : ℕ) : ℚ) := by norm_cast
  rw [hc, roundF64_small _ h3, roundF64_small _ h3]
  have hlt : ((cur - prev : ℕ) : ℚ) < 2 ^ 64 := by
    have : cur - prev < 2 ^ 64 := by omega
    exact_mod_cast this
  have hgt : (-1 : ℚ) < ((cur - prev : ℕ) : ℚ) := by
    have : (0 : ℚ) ≤ ((cur - prev : ℕ) : ℚ) := Nat.cast_nonneg _
    linarith
  simp only [F64.toUint64, hgt, hlt, and_self, if_true]
  rw [show ((cur - prev : ℕ) : ℚ) = (((cur - prev : ℕ) : ℤ) : ℚ) by norm_cast, Int.floor_intCast]
  simp

/-- Rates of `GetStatus` without a counter reset: with the previous snapshot taken
exactly one second earlier, counters below `2 ^ 64` that did not decrease and grew
by less than `2 ^ 53`, `NetIO.Up` and `NetIO.Down` are the differences of the sent
and of the received counters. -/
theorem GetStatus_rate_one_second (s : ServerService) (last : Status) (env : StatusEnv)
    (ioStat : IOCountersStat) (others : List IOCountersStat)
    (hio : env.ioCounters = some (ioStat :: others))
    (hdur : env.now - last.T = 1000000000)
    (hs1 : last.NetTrafficSent ≤ ioStat.BytesSent) (hs2 : ioStat.BytesSent < 2 ^ 64)
    (hs3 : ioStat.BytesSent - last.NetTrafficSent < 2 ^ 53)
    (hr1 : last.NetTrafficRecv ≤ ioStat.BytesRecv) (hr2 : ioStat.BytesRecv < 2 ^ 64)
    (hr3 : ioStat.BytesRecv - last.NetTrafficRecv < 2 ^ 53) :
    (GetStatus s (some last) env).2.1.NetIOUp = ioStat.BytesSent - last.NetTrafficSent ∧
    (GetStatus s (some last) env).2.1.NetIODown =
      ioStat.BytesRecv - last.NetTrafficRecv := by
  simp only [GetStatus, hio, hdur, seconds_one]
  exact ⟨rate_one_second env.conv _ _ hs1 hs2 hs3, rate_one_second env.conv _ _ hr1 hr2 hr3⟩

/-- The specification's example: counters 1000 then 1500, one second apart. -/
theorem GetStatus_rate_one_second_witness :
    (GetStatus polledService (some (snapshotAt 0 1000 1000))
      (counterEnv (fun _ => 0) 1000000000 1500 1500)).2.1.NetIOUp = 1500 - 1000 ∧
    (GetStatus polledService (some (snapshotAt 0 1000 1000))
      (counterEnv (fun _ => 0) 1000000000 1500 1500)).2.1.NetIODown = 1500 - 1000 :=
  GetStatus_rate_one_second polledService (snapshotAt 0 1000 1000)
    (counterEnv (fun _ => 0) 1000000000 1500 1500) ⟨1500, 1500⟩ [] rfl (by decide)
    (by decide) (by decide) (by decide) (by decide) (by decide) (by decide)

theorem ne_append_backup (p : String) : p ≠ p ++ ".backup" := by
  intro h
  have h1 := congrArg String.length h
  simp only [String.length_append] at h1
  have h2 : ".backup".length = 7 := by decide
  omega

/-- Rollback when the restoring copy works: with the SQLite backend, a live store,
an artifact recognised as SQLite, the store renamed aside, and the copy of the
artifact failing at any stage, a successful copy of the backup puts the old bytes
back at the store path before `ImportDB` returns its error. -/
theorem ImportDB_rollback_restores (env : ImportEnv) (file store : Bytes) (w : World)
    (hType : env.dbType = "sqlite") (hStore : w.fs env.dbPath = some store)
    (hCreate : env.createTempOk = true)
    (hFree : w.fs (env.tempDir ++ "/dbimport-" ++ env.tempRand ++ ".tmp") = none)
    (hUp : env.uploadFault = none) (hClose : env.closeOk = true)
    (hOpen : env.openCheckOk = true)
    (hSQL : IsSQLiteDB ⟨file, env.readFault⟩ = (true, none))
    (hRen : env.renameFault = false) (hCopy : env.copyFault ≠ CopyFault.ok)
    (hStat : env.statBackupOk = true) (hRest : env.restoreFault = CopyFault.ok) :
    (∃ cause, (ImportDB env file w).2 = some (ImportErr.replaceDB cause)) ∧
    (ImportDB env file w).1.fs env.dbPath = some store := by
  have hB : env.dbPath ++ ".backup" ≠ env.tempDir ++ "/dbimport-" ++ env.tempRand ++ ".tmp" :=
    fun h => tmp_ne_backup _ _ h.symm
  have hD : env.dbPath ≠ env.tempDir ++ "/dbimport-" ++ env.tempRand ++ ".tmp" := by
    intro h
    rw [← h, hStore] at hFree
    exact absurd hFree (by simp)
  have hP : env.dbPath ≠ env.dbPath ++ ".backup" := ne_append_backup _
  have hC : ¬(env.createTempOk = false ∨
      (w.fs (env.tempDir ++ "/dbimport-" ++ env.tempRand ++ ".tmp")).isSome = true) := by
    simp [hCreate, hFree]
  simp only [ImportDB, if_neg hC, importUploaded, hUp, hClose, hOpen, StopXrayService,
    RestartXrayService, importBranch, World.log, osRemove, osRename, FS.set_same,
    Option.getD_some, hSQL, hType, hRen]
  cases hcf : env.copyFault with
  | ok => exact absurd hcf hCopy
  | stat =>
    simp [copyFile, World.log, FS.set, hB, hD, hP, hB.symm, hD.symm, hP.symm, hStore,
      hStat, hRest]
  | notRegular =>
    simp [copyFile, World.log, FS.set, hB, hD, hP, hB.symm, hD.symm, hP.symm, hStore,
      hStat, hRest]
  | openSrc =>
    simp [copyFile, World.log, FS.set, hB, hD, hP, hB.symm, hD.symm, hP.symm, hStore,
      hStat, hRest]
  | create =>
    simp [copyFile, World.log, FS.set, hB, hD, hP, hB.symm, hD.symm, hP.symm, hStore,
      hStat, hRest]
  | copy k =>
    simp [copyFile, World.log, FS.set, hB, hD, hP, hB.symm, hD.symm, hP.symm, hStore,
      hStat, hRest]

/-- Rollback at a concrete input: the artifact file cannot be opened for the copy. -/
theorem ImportDB_rollback_restores_witness :
    (∃ cause, (ImportDB unreadableTempEnv artifact storeWorld).2 =
      some (ImportErr.replaceDB cause)) ∧
    (ImportDB unreadableTempEnv artifact storeWorld).1.fs "/etc/x-ui/x-ui.db" =
      some liveStore :=
  ImportDB_rollback_restores unreadableTempEnv artifact liveStore storeWorld rfl (by decide)
    rfl (by decide) rfl rfl rfl (by decide) rfl (by decide) rfl rfl

end service

end XUI

namespace XUI

namespace database

/-- C11 (counterexample): the table is empty and the database is read-only, so
the count query succeeds and the insert fails. `initUser` inserts no user and
returns the error of the insert; a second run on the same database returns that
error again; and when the second run finds the database writable it inserts the
default user, so the table after two runs is not the table after one. -/
theorem C11_insert_failure_breaks_idempotence :
    initUser readOnlyDB [] = ([], some "create failed") ∧
    initUser readOnlyDB (initUser readOnlyDB []).1 = ([], some "create failed") ∧
    initUser healthyDB (initUser readOnlyDB []).1 = ([⟨"admin", "admin", ""⟩], none) ∧
    (initUser healthyDB (initUser readOnlyDB []).1).1 ≠ (initUser readOnlyDB []).1 := by
  refine ⟨by decide, by decide, by decide, by decide⟩

/-- One run of `initUser` when the count query succeeds. -/
theorem initUser_of_count (env : DBEnv) (users : List User) (h : env.countErr = false) :
    initUser env users =
      if users = [] then
        if env.createErr then (users, some "create failed")
        else (users ++ [⟨"admin", "admin", ""⟩], none)
      else (users, none) := by
  cases users with
  | nil => simp [initUser, isTableEmpty, h, defaultUsername, defaultPassword, defaultSecret]
  | cons u us => simp [initUser, isTableEmpty, h]

/-- One run of `initUser` when the count query fails: the error, and no change. -/
theorem initUser_of_countErr (env : DBEnv) (users : List User) (h : env.countErr = true) :
    initUser env users = (users, some "count failed") := by
  simp [initUser, isTableEmpty, h]

/-- C11 (amended): when the count query succeeds, `initUser` inserts exactly one
user (`admin`, `admin`, empty login secret) if the table has zero rows and the
insert succeeds, returns the error of the insert and leaves the table empty if
the insert fails, and leaves a table that has rows unchanged, without error.
Running it twice in succession, with the count query succeeding in both runs and
no error from the first, yields the same table as running it once and the second
run returns no error. Whatever the database answers, two runs never add more
than the one default user to an empty table and add nothing to any other. -/
theorem C11_seeding_idempotent (e1 e2 : DBEnv) (users : List User)
    (h1 : e1.countErr = false) (h2 : e2.countErr = false) :
    (users = [] → e1.createErr = false →
      initUser e1 users = ([⟨"admin", "admin", ""⟩], none)) ∧
    (users = [] → e1.createErr = true →
      (initUser e1 users).1 = [] ∧ (initUser e1 users).2 ≠ none) ∧
    (users ≠ [] → initUser e1 users = (users, none)) ∧
    ((initUser e1 users).2 = none →
      initUser e2 (initUser e1 users).1 = ((initUser e1 users).1, none)) ∧
    (∀ d1 d2 : DBEnv, (initUser d2 (initUser d1 users).1).1 = users ∨
      (users = [] ∧ (initUser d2 (initUser d1 users).1).1 = [⟨"admin", "admin", ""⟩])) := by
  refine ⟨?_, ?_, ?_, ?_, ?_⟩
  · intro hu hc
    subst hu
    rw [initUser_of_count e1 [] h1]
    simp [hc]
  · intro hu hc
    subst hu
    rw [initUser_of_count e1 [] h1]
    simp [hc]
  · intro hu
    rw [initUser_of_count e1 users h1]
    simp [hu]
  · intro hok
    rw [initUser_of_count e1 users h1] at hok ⊢
    rw [initUser_of_count e2 _ h2]
    by_cases hu : users = []
    · cases hc : e1.createErr
      · simp [hu, hc]
      · simp [hu, hc] at hok
    · simp [hu]
  · intro d1 d2
    cases c1 : d1.countErr <;> cases c2 : d2.countErr
    · rw [initUser_of_count d1 users c1, initUser_of_count d2 _ c2]
      by_cases hu : users = []
      · cases d1.createErr <;> cases d2.createErr <;> simp [hu]
      · simp [hu]
    · rw [initUser_of_countErr d2 _ c2, initUser_of_count d1 users c1]
      by_cases hu : users = []
      · cases d1.createErr <;> simp [hu]
      · simp [hu]
    · rw [initUser_of_countErr d1 users c1, initUser_of_count d2 _ c2]
      by_cases hu : users = []
      · cases d2.createErr <;> simp [hu]
      · simp [hu]
    · rw [initUser_of_countErr d1 users c1, initUser_of_countErr d2 _ c2]
      simp

/-- C11 witness: two runs on an empty table of a healthy database. -/
theorem C11_seeding_idempotent_witness :
    initUser healthyDB [] = ([⟨"admin", "admin", ""⟩], none) ∧
    initUser healthyDB (initUser healthyDB []).1 = ((initUser healthyDB []).1, none) :=
  ⟨(C11_seeding_idempotent healthyDB healthyDB [] rfl rfl).1 rfl rfl,
   (C11_seeding_idempotent healthyDB healthyDB [] rfl rfl).2.2.2.1 (by decide)⟩

end database

end XUI

namespace XUI

namespace service

open database

theorem quietlyExtends_refl (w : World) : w.quietlyExtends w :=
  ⟨[], by simp, by simp⟩

theorem quietlyExtends_trans (w1 w2 w3 : World) (h12 : w1.quietlyExtends w2)
    (h23 : w2.quietlyExtends w3) : w1.quietlyExtends w3 := by
  obtain ⟨e1, t1, q1⟩ := h12
  obtain ⟨e2, t2, q2⟩ := h23
  refine ⟨e1 ++ e2, by rw [t2, t1, List.append_assoc], ?_⟩
  intro e he
  rcases List.mem_append.1 he with h | h
  · exact q1 e h
  · exact q2 e h

theorem osRemove_quiet (w : World) (path : String) : w.quietlyExtends (osRemove w path) :=
  ⟨[Event.remove path], rfl, by simp [Event.isXray]⟩

theorem osRename_quiet (fault : Bool) (w : World) (a b : String) :
    w.quietlyExtends (osRename fault w a b).1 := by
  refine ⟨[Event.rename a b], ?_, by simp [Event.isXray]⟩
  simp only [osRename, World.log]
  cases w.fs a with
  | none => rfl
  | some data => cases fault <;> rfl

theorem copyFile_quiet (fault : CopyFault) (w : World) (src dst : String) :
    w.quietlyExtends (copyFile fault w src dst).1 := by
  simp only [copyFile]
  cases w.fs src with
  | none => exact quietlyExtends_refl w
  | some data =>
    cases fault with
    | ok => exact ⟨[Event.create dst, Event.write dst], by simp, by simp [Event.isXray]⟩
    | stat => exact quietlyExtends_refl w
    | notRegular => exact quietlyExtends_refl w
    | openSrc => exact quietlyExtends_refl w
    | create => exact ⟨[Event.create dst], by simp [World.log], by simp [Event.isXray]⟩
    | copy k => exact ⟨[Event.create dst, Event.write dst], by simp, by simp [Event.isXray]⟩

theorem log_exec_quiet (w : World) (name : String) :
    w.quietlyExtends (w.log (Event.exec name)) :=
  ⟨[Event.exec name], rfl, by simp [Event.isXray]⟩

/-- The branch on the backend kind makes no call to the supervised process. -/
theorem importBranch_quiet (env : ImportEnv) (isSQLite : Bool) (tempFilePath : String)
    (w : World) : w.quietlyExtends (importBranch env isSQLite tempFilePath w).1 := by
  unfold importBranch
  by_cases hs : env.dbType = "sqlite"
  · rw [if_pos hs]
    cases isSQLite with
    | false => exact quietlyExtends_refl w
    | true =>
      simp only [Bool.true_eq_false, if_false]
      have q1 := osRemove_quiet w (env.dbPath ++ ".backup")
      have q2 := osRename_quiet env.renameFault (osRemove w (env.dbPath ++ ".backup"))
        env.dbPath (env.dbPath ++ ".backup")
      rcases hr : osRename env.renameFault (osRemove w (env.dbPath ++ ".backup"))
        env.dbPath (env.dbPath ++ ".backup") with ⟨w2, errRename⟩
      rw [hr] at q2
      have q12 := quietlyExtends_trans _ _ _ q1 q2
      have q3 := copyFile_quiet env.copyFault w2 tempFilePath env.dbPath
      rcases hc : copyFile env.copyFault w2 tempFilePath env.dbPath with ⟨w3, errCopy⟩
      rw [hc] at q3
      have q13 := quietlyExtends_trans _ _ _ q12 q3
      simp only
      cases errCopy with
      | none =>
        simp only
        split_ifs
        · exact quietlyExtends_trans _ _ _ q13 (osRemove_quiet _ _)
        · exact q13
      | some cause =>
        simp only
        have q4 : w.quietlyExtends
            (if (w3.fs (env.dbPath ++ ".backup")).isSome ∧ env.statBackupOk = true then
              (copyFile env.restoreFault w3 (env.dbPath ++ ".backup") env.dbPath).1
            else w3) := by
          split_ifs
          · exact quietlyExtends_trans _ _ _ q13 (copyFile_quiet _ _ _ _)
          · exact q13
        generalize (if (w3.fs (env.dbPath ++ ".backup")).isSome ∧ env.statBackupOk = true then
              (copyFile env.restoreFault w3 (env.dbPath ++ ".backup") env.dbPath).1
            else w3) = w4 at q4 ⊢
        split_ifs
        · exact quietlyExtends_trans _ _ _ q4 (osRemove_quiet _ _)
        · exact q4
  · rw [if_neg hs]
    by_cases hp : env.dbType = "postgres"
    · rw [if_pos hp]
      cases isSQLite with
      | true =>
        simp only [if_true]
        split_ifs
        · exact log_exec_quiet _ _
        · exact quietlyExtends_trans _ _ _ (log_exec_quiet _ _) (log_exec_quiet _ _)
        · exact quietlyExtends_trans _ _ _ (log_exec_quiet _ _) (log_exec_quiet _ _)
      | false =>
        simp only [Bool.false_eq_true, if_false]
        split_ifs
        · exact quietlyExtends_refl w
        · exact log_exec_quiet _ _
        · exact log_exec_quiet _ _
    · rw [if_neg hp]
      exact quietlyExtends_refl w

/-- C12: for every backend kind, artifact and outcome of the later steps, the calls
of one `ImportDB` are as follows. When the temporary file is created, the upload
saved and closed, and the format check made without error, `ImportDB` reaches
`StopXrayService`: it stops the supervised process, runs the branch of the backend
kind, which makes no call to the supervised process, and before it returns calls
`RestartXrayService`, that is `StopXray` and then `RestartXray(true)`, followed
only by the removal of the temporary file. When one of those first steps fails it
returns an error and makes neither a stop nor a restart call. -/
theorem C12_restart_after_stop (env : ImportEnv) (file : Bytes) (w : World) :
    ∃ evs, (ImportDB env file w).1.trace = w.trace ++ evs ∧
      ((env.createTempOk = true ∧
          w.fs (env.tempDir ++ "/dbimport-" ++ env.tempRand ++ ".tmp") = none ∧
          env.uploadFault = none ∧ env.closeOk = true ∧ env.openCheckOk = true ∧
          (IsSQLiteDB ⟨file, env.readFault⟩).2 = none) →
        ∃ mid,
          evs = [Event.createTemp (env.tempDir ++ "/dbimport-" ++ env.tempRand ++ ".tmp"),
                 Event.write (env.tempDir ++ "/dbimport-" ++ env.tempRand ++ ".tmp"),
                 Event.StopXray] ++ mid ++
                [Event.StopXray, Event.RestartXray true,
                 Event.remove (env.tempDir ++ "/dbimport-" ++ env.tempRand ++ ".tmp")] ∧
          ∀ e ∈ mid, e.isXray = false) ∧
      (¬(env.createTempOk = true ∧
          w.fs (env.tempDir ++ "/dbimport-" ++ env.tempRand ++ ".tmp") = none ∧
          env.uploadFault = none ∧ env.closeOk = true ∧ env.openCheckOk = true ∧
          (IsSQLiteDB ⟨file, env.readFault⟩).2 = none) →
        (ImportDB env file w).2 ≠ none ∧ ∀ e ∈ evs, e.isXray = false) := by
  by_cases hC : env.createTempOk = false ∨
      (w.fs (env.tempDir ++ "/dbimport-" ++ env.tempRand ++ ".tmp")).isSome
  · refine ⟨[], by simp [ImportDB, hC], ?_, ?_⟩
    · rintro ⟨h1, h2, -⟩
      rcases hC with h | h
      · rw [h1] at h
        exact absurd h (by decide)
      · rw [h2] at h
        exact absurd h (by decide)
    · intro _
      simp [ImportDB, hC]
  · have hc1 : env.createTempOk = true := by
      cases h : env.createTempOk
      · exact absurd (Or.inl h) hC
      · rfl
    have hc2 : w.fs (env.tempDir ++ "/dbimport-" ++ env.tempRand ++ ".tmp") = none := by
      cases h : w.fs (env.tempDir ++ "/dbimport-" ++ env.tempRand ++ ".tmp") with
      | none => rfl
      | some b => exact absurd (Or.inr (by simp [h])) hC
    simp only [ImportDB, if_neg hC, importUploaded, osRemove, FS.set_same, Option.getD_some]
    cases hu : env.uploadFault with
    | some k =>
      exact ⟨_, by simp only [List.append_assoc]; rfl, by simp [hu],
        by simp [Event.isXray]⟩
    | none =>
      cases hcl : env.closeOk with
      | false =>
        exact ⟨_, by simp only [Bool.false_eq_true, if_true, List.append_assoc]; rfl,
          by simp [hcl], by simp [Event.isXray]⟩
      | true =>
        cases hop : env.openCheckOk with
        | false =>
          exact ⟨_, by simp only [Bool.false_eq_true, Bool.true_eq_false, if_true, if_false,
            List.append_assoc]; rfl, by simp [hop], by simp [Event.isXray]⟩
        | true =>
          rcases hsq : IsSQLiteDB ⟨file, env.readFault⟩ with ⟨b, eo⟩
          cases eo with
          | some e =>
            exact ⟨_, by simp only [Bool.true_eq_false, if_false, List.append_assoc]; rfl,
              by simp, by simp [Event.isXray]⟩
          | none =>
            simp only [Bool.true_eq_false, if_false, StopXrayService, RestartXrayService,
              World.log]
            obtain ⟨mid, hmid, hq⟩ := importBranch_quiet env b
              (env.tempDir ++ "/dbimport-" ++ env.tempRand ++ ".tmp")
              { fs := (w.fs.set (env.tempDir ++ "/dbimport-" ++ env.tempRand ++ ".tmp")
                        (some [])).set
                        (env.tempDir ++ "/dbimport-" ++ env.tempRand ++ ".tmp") (some file),
                trace := (w.trace ++
                    [Event.createTemp (env.tempDir ++ "/dbimport-" ++ env.tempRand ++ ".tmp")] ++
                    [Event.write (env.tempDir ++ "/dbimport-" ++ env.tempRand ++ ".tmp")]) ++
                  [Event.StopXray] }
            refine ⟨[Event.createTemp (env.tempDir ++ "/dbimport-" ++ env.tempRand ++ ".tmp"),
                 Event.write (env.tempDir ++ "/dbimport-" ++ env.tempRand ++ ".tmp"),
                 Event.StopXray] ++ mid ++
                [Event.StopXray, Event.RestartXray true,
                 Event.remove (env.tempDir ++ "/dbimport-" ++ env.tempRand ++ ".tmp")],
              ?_, fun _ => ⟨mid, rfl, hq⟩, ?_⟩
            · rw [hmid]
              simp
            · intro hnot
              exact absurd (by simp [hc1, hc2]) hnot

/-- C12 witness: the import on the full volume reaches the stop call, fails in the
branch of the SQLite backend, and still restarts the supervised process. -/
theorem C12_restart_after_stop_witness :
    ∃ mid,
      (ImportDB diskFullEnv artifact storeWorld).1.trace =
        [Event.createTemp "/tmp/dbimport-42.tmp", Event.write "/tmp/dbimport-42.tmp",
         Event.StopXray] ++ mid ++
        [Event.StopXray, Event.RestartXray true, Event.remove "/tmp/dbimport-42.tmp"] ∧
      ∀ e ∈ mid, e.isXray = false := by
  obtain ⟨evs, ht, hreach, -⟩ := C12_restart_after_stop diskFullEnv artifact storeWorld
  obtain ⟨mid, hmid, hq⟩ := hreach (by decide)
  refine ⟨mid, ?_, hq⟩
  rw [ht, hmid]
  rfl

end service

end XUI
